import Mathlib

/-!
Verification development for the LIS incident-status pipeline (`LISv4.py`).

The Python source is shallowly embedded: strings are lists of characters,
`datetime` instants are integers (only their ordering is ever used by the
pipeline), Python dictionaries are insertion-ordered association lists with
replace-in-place update, and Python exceptions are modelled with `Except` /
sentinel constructors mirroring the source's own error returns.  Filesystem
interaction is modelled by handing each pass the list of staged files
(name plus parsed content); `os.path.exists` is therefore `true` for every
file a pass is given.
-/

namespace LIS

/-- Strings of the embedded program, as plain character lists so that every
operation reduces in the kernel. -/
abbrev Str := List Char

/-- Embed a Lean string literal. -/
def str (s : String) : Str := s.data

/-- ASCII approximation of the regex word class used by Python's word
boundary assertion. -/
def isWordChar (c : Char) : Bool := c.isAlphanum || c == '_'

def isDigitChar (c : Char) : Bool := c.isDigit

/-- Python regex whitespace class (ASCII part). -/
def isSpaceChar (c : Char) : Bool :=
  c == ' ' || c == '\t' || c == '\n' || c == '\r' || c == '\x0b' || c == '\x0c'

def wordAt (s : Str) (i : Nat) : Bool := (s.get? i).any isWordChar

/-- Python regex word boundary at offset `i` of `s` (positions run from 0 to
`s.length`). -/
def pyBoundary (s : Str) (i : Nat) : Bool :=
  (decide (i ≠ 0) && wordAt s (i - 1)) != wordAt s i

/-- Length of the maximal run of characters satisfying `p` starting at
offset `i`. -/
def countWhile (p : Char → Bool) (s : Str) (i : Nat) : Nat :=
  ((s.drop i).takeWhile p).length

/-- Case-sensitive literal match of `lit` at offset `i` of `s`. -/
def litMatch (lit : Str) (s : Str) (i : Nat) : Bool :=
  lit == (s.drop i).take lit.length

def toLowerC (c : Char) : Char := c.toLower

/-- Case-insensitive literal match (`lit` lower-case) at offset `i`. -/
def litMatchCI (lit : Str) (s : Str) (i : Nat) : Bool :=
  lit == ((s.drop i).take lit.length).map toLowerC

def lowerStr (s : Str) : Str := s.map toLowerC

/-- First `some` produced by `f` along the list, in order: the regex
alternation / first-match combinator. -/
def firstSome {α β : Type} (f : α → Option β) : List α → Option β
  | [] => none
  | a :: l =>
    match f a with
    | some b => some b
    | none => firstSome f l

/-- The apartment/suite/unit marker alternatives of
`remove_address_numbers`, in the order they appear in the pattern. -/
def addrMarkers : List Str :=
  [str "apt", str "apartment", str "suite", str "ste", str "unit", str "#",
   str "lot", str "rear", str "room", str "rm"]

def descRange (n : Nat) : List Nat := (List.range (n + 1)).reverse

/-- Greedy match with backtracking of the regex tail `\s*\d*\b` starting at
offset `j`; returns the end offset of the overall match. -/
def tailMatch (s : Str) (j : Nat) : Option Nat :=
  firstSome
    (fun ws =>
      let p := j + ws
      firstSome
        (fun d => if pyBoundary s (p + d) then some (p + d) else none)
        (descRange (countWhile isDigitChar s p)))
    (descRange (countWhile isSpaceChar s j))

/-- First alternative of the `remove_address_numbers` pattern:
`\b\d+\s*(?:apt|apartment|suite|ste|unit|#|lot|rear|room|rm)?\s*\d*\b`
(with `re.IGNORECASE`), matched at offset `i`; returns the match end. -/
def branch1 (s : Str) (i : Nat) : Option Nat :=
  if !pyBoundary s i then none
  else
    let n1 := countWhile isDigitChar s i
    if n1 == 0 then none
    else
      let j := i + n1
      let k := j + countWhile isSpaceChar s j
      match firstSome
          (fun m => if litMatchCI m s k then tailMatch s (k + m.length) else none)
          addrMarkers with
      | some e => some e
      | none => tailMatch s j

/-- Second alternative: `\b(?:apt|apartment|suite|ste|unit|#|lot|rear|room|rm)\b`. -/
def branch2 (s : Str) (i : Nat) : Option Nat :=
  if !pyBoundary s i then none
  else
    firstSome
      (fun m =>
        if litMatchCI m s i && pyBoundary s (i + m.length) then some (i + m.length)
        else none)
      addrMarkers

/-- The full alternation of the `remove_address_numbers` pattern at offset
`i`. -/
def addrPatMatch (s : Str) (i : Nat) : Option Nat :=
  match branch1 s i with
  | some e => some e
  | none => branch2 s i

/-- `re.sub(pattern, '', s)`: scan left to right, drop every leftmost
non-overlapping match (both alternatives match at least one character, so
each match advances the scan). -/
def subScan (s : Str) : Nat → Nat → Str
  | 0, _ => []
  | fuel + 1, i =>
    if h : i < s.length then
      match addrPatMatch s i with
      | some e => subScan s fuel (max e (i + 1))
      | none => s.get ⟨i, h⟩ :: subScan s fuel (i + 1)
    else []

/-- Python `str.strip()`. -/
def pyStrip (s : Str) : Str :=
  ((s.dropWhile isSpaceChar).reverse.dropWhile isSpaceChar).reverse

/-- `remove_address_numbers` (LISv4.py line 145-146): substitute the number /
marker pattern by the empty string, then strip. -/
def remove_address_numbers (s : Str) : Str :=
  pyStrip (subScan s s.length 0)

/-- Python `str.title()` for ASCII: a letter following a non-letter is
upper-cased, a letter following a letter is lower-cased. -/
def titleGo : Bool → Str → Str
  | _, [] => []
  | prevAlpha, c :: rest =>
    if c.isAlpha then (if prevAlpha then c.toLower else c.toUpper) :: titleGo true rest
    else c :: titleGo false rest

def pyTitle (s : Str) : Str := titleGo false s

/-- Python `str.split(sep)` for a one-character separator (keeps empty
segments, exactly like the source's `split(',')` and `split('_')`). -/
def splitOnCharGo (sep : Char) : Str → List Str
  | [] => [[]]
  | c :: rest =>
    match splitOnCharGo sep rest with
    | [] => [[]]
    | h :: t => if c == sep then [] :: h :: t else (c :: h) :: t

/-- Python `sep.join(parts)`. -/
def joinWith (sep : Str) : List Str → Str
  | [] => []
  | [x] => x
  | x :: y :: t => x ++ sep ++ joinWith sep (y :: t)

/-- Python substring containment `needle in hay`. -/
def isSubstr : Str → Str → Bool
  | needle, [] => needle.isEmpty
  | needle, c :: rest => (needle == (c :: rest).take needle.length) || isSubstr needle rest

def digitsToNat (s : Str) : Nat :=
  s.foldl (fun a c => a * 10 + (c.toNat - '0'.toNat)) 0

/-- Python `int(s)`: optional surrounding whitespace, optional sign, at
least one digit; anything else raises `ValueError` (modelled as `none`). -/
def pyInt (s : Str) : Option Int :=
  match pyStrip s with
  | '-' :: ds =>
    if !ds.isEmpty && ds.all isDigitChar then some (-(digitsToNat ds : Int)) else none
  | '+' :: ds =>
    if !ds.isEmpty && ds.all isDigitChar then some ((digitsToNat ds : Int)) else none
  | ds =>
    if !ds.isEmpty && ds.all isDigitChar then some ((digitsToNat ds : Int)) else none

/-! ### fnmatch-style glob matching (`is_excluded_unit`) -/
/-- Membership of `c` in the body of an fnmatch character class, with
`a-b` ranges. -/
def classMatchChar : Str → Char → Bool
  | a :: '-' :: b :: rest, c =>
    (decide (a.toNat ≤ c.toNat) && decide (c.toNat ≤ b.toNat)) || classMatchChar rest c
  | a :: rest, c => (a == c) || classMatchChar rest c
  | [], _ => false

/-- Scan a class body up to the closing bracket; `none` when unterminated
(the opening bracket is then a literal, as in `fnmatch.translate`). -/
def scanClass : Str → Option (Str × Str)
  | [] => none
  | ']' :: t => some ([], t)
  | c :: t =>
    match scanClass t with
    | some (cls, r) => some (c :: cls, r)
    | none => none

/-- Split an fnmatch class that starts just after an opening bracket into
(negated, body, rest): a leading `!` negates, a bracket right after the
opening (or after `!`) is a literal member. -/
def splitClass (p : Str) : Option (Bool × Str × Str) :=
  match p with
  | '!' :: ']' :: t =>
    match scanClass t with
    | some (cls, r) => some (true, ']' :: cls, r)
    | none => none
  | '!' :: q =>
    match scanClass q with
    | some (cls, r) => some (true, cls, r)
    | none => none
  | ']' :: t =>
    match scanClass t with
    | some (cls, r) => some (false, ']' :: cls, r)
    | none => none
  | q =>
    match scanClass q with
    | some (cls, r) => some (false, cls, r)
    | none => none

/-- fnmatch pattern match, fuelled (each step shortens pattern or subject). -/
def globMatchF : Nat → Str → Str → Bool
  | 0, _, _ => false
  | fuel + 1, p, s =>
    match p, s with
    | [], _ => s.isEmpty
    | '*' :: pr, _ =>
      globMatchF fuel pr s ||
        (match s with
         | [] => false
         | _ :: sr => globMatchF fuel ('*' :: pr) sr)
    | '?' :: pr, _ =>
      (match s with
       | [] => false
       | _ :: sr => globMatchF fuel pr sr)
    | '[' :: pr, _ =>
      (match splitClass pr with
       | some (neg, cls, rest) =>
         (match s with
          | [] => false
          | c :: sr => (classMatchChar cls c != neg) && globMatchF fuel rest sr)
       | none =>
         (match s with
          | [] => false
          | c :: sr => (c == '[') && globMatchF fuel pr sr))
    | c :: pr, _ =>
      (match s with
       | [] => false
       | d :: sr => (c == d) && globMatchF fuel pr sr)

def globMatch (pat s : Str) : Bool :=
  globMatchF (pat.length + s.length + 1) pat s

/-- `is_excluded_unit` (LISv4.py lines 326-330): any configured glob
pattern matches the lower-cased unit identifier (patterns lower-cased too). -/
def is_excluded_unit (unit_id : Str) (excluded : List Str) : Bool :=
  excluded.any fun pat => globMatch (lowerStr pat) (lowerStr unit_id)

/-! ### Latitude/longitude extraction -/
/-- Greedy match of `[-+]?[0-9]*\.?[0-9]+` at offset `p` of `s`, returning
the matched text. -/
def decimalNumAt (s : Str) (p : Nat) : Option Str :=
  let sgn : Str :=
    match s.get? p with
    | some '-' => ['-']
    | some '+' => ['+']
    | _ => []
  let q := p + sgn.length
  let n1 := countWhile isDigitChar s q
  let r := q + n1
  if s.get? r == some '.' && countWhile isDigitChar s (r + 1) != 0 then
    some (sgn ++ (s.drop q).take (n1 + 1 + countWhile isDigitChar s (r + 1)))
  else if n1 != 0 then some (sgn ++ (s.drop q).take n1)
  else none

/-- `re.search(tag + r'\s*([-+]?[0-9]*\.?[0-9]+)', s)`: first position where
the literal tag, optional whitespace, and a decimal number all match;
returns the captured number. -/
def searchTagNumF (tag : Str) (s : Str) : Nat → Nat → Option Str
  | 0, _ => none
  | fuel + 1, i =>
    if i ≤ s.length then
      if litMatch tag s i then
        match decimalNumAt s (i + tag.length + countWhile isSpaceChar s (i + tag.length)) with
        | some numv => some numv
        | none => searchTagNumF tag s fuel (i + 1)
      else searchTagNumF tag s fuel (i + 1)
    else none

def searchTagNum (tag : Str) (s : Str) : Option Str :=
  searchTagNumF tag s (s.length + 1) 0

/-! ### Data model

An XML export file is embedded as its parse outcome: empty, unparsable, or
a document carrying exactly the fields the source reads (`findtext` of a
missing element is `none`).  `CreateDateTime` is kept as
element-presence × element-text because the source uses `find` (not
`findtext`) for it. -/
structure RawAgencyContext where
  agencyType : Option Str
  callType : Option Str
  status : Option Str
deriving DecidableEq, Repr

structure RawUnit where
  unitNumber : Option Str
  unitTypeText : Option Str
  clearDateTime : Option Str
  arriveDateTime : Option Str
  enrouteDateTime : Option Str
  jurisdiction : Option Str
  isPrimary : Option Str
deriving DecidableEq, Repr

structure CallDoc where
  callNumber : Option Str
  closeDateTime : Option Str
  fullAddress : Option Str
  agencyContexts : List RawAgencyContext
  assignedUnits : List RawUnit
  createDateTime : Option (Option Str)
deriving DecidableEq, Repr

inductive FileContent
  | empty
  | malformed
  | doc (d : CallDoc)
deriving DecidableEq, Repr

structure XmlFile where
  name : Str
  content : FileContent
deriving DecidableEq, Repr

structure UnitDetail where
  unit_id : Option Str
  unit_type : Str
  clear_time : Option Int
  arrive_time : Option Int
  enroute_time : Option Int
  jurisdiction : Option Str
  is_primary : Bool
deriving DecidableEq, Repr

structure AgencyContextOut where
  agency_type : Str
  call_type : Option Str
  status : Option Str
deriving DecidableEq, Repr

structure Snapshot where
  call_number : Option Str
  close_datetime : Option Str
  agency_contexts : List AgencyContextOut
  location : Option Str
  nature_of_call : Option Str
  unit_details : List UnitDetail
  primary_unit : Option UnitDetail
  latitude : Option Str
  longitude : Option Str
  createDateTime : Option (Option Str)
deriving DecidableEq, Repr

/-- The static policy tables read from configuration.  The
`jurisdiction_company_mapping` inner dictionaries are reduced to their
`agency_type` value (a missing key yields `""`, exactly what the chained
`.get` calls of line 406 produce). -/
structure Config where
  excluded_units : List Str
  excluded_unit_types : List Str
  excluded_call_types : List Str
  jurisdiction_company_mapping : List (Str × Str)
deriving DecidableEq, Repr

/-- Python truthiness of an optional string (`None` and `""` are falsy). -/
def truthy : Option Str → Bool
  | none => false
  | some s => !s.isEmpty

/-- `parse_datetime` (LISv4.py lines 249-264), with the strptime formats
abstracted: a datetime instant is embedded as its integer code, a valid
timestamp string is the decimal rendering of that code, and any string the
parser would reject yields `None` (the source logs the failure and returns
`None`).  Only the order of instants is ever used downstream. -/
def parse_datetime : Option Str → Option Int
  | none => none
  | some s => pyInt s

/-! ### Record extractor (`extract_xml_data`, lines 184-247) -/
/-- Outcome of `extract_xml_data`: `errTuple` is the source's 9-value error
return (lines 188, 244, 247) — note the success path returns 10 values. -/
inductive ExtractResult
  | errTuple
  | ok (s : Snapshot)
deriving DecidableEq, Repr

/-- The agency-context loop (lines 213-220).  `AgencyType` is dereferenced
with `.lower()` without a guard, so a missing `AgencyType` raises
`AttributeError`, caught by the surrounding handler: the whole file fails. -/
def extractAgencyContexts : List RawAgencyContext → Option (List AgencyContextOut)
  | [] => some []
  | c :: rest =>
    match c.agencyType with
    | none => none
    | some t =>
      match extractAgencyContexts rest with
      | none => none
      | some l =>
        some ({ agency_type := lowerStr t, call_type := c.callType, status := c.status } :: l)

/-- The unit loop (lines 224-239): `Type` is dereferenced with `.title()`
without a guard (missing `Type` fails the whole file); the last
primary-flagged unit wins; units whose lower-cased type is excluded are
dropped from the returned list after the primary assignment. -/
def extractUnitsGo (cfg : Config) :
    List RawUnit → List UnitDetail → Option UnitDetail →
      Option (List UnitDetail × Option UnitDetail)
  | [], acc, prim => some (acc, prim)
  | u :: rest, acc, prim =>
    match u.unitTypeText with
    | none => none
    | some ty =>
      let d : UnitDetail :=
        { unit_id := u.unitNumber
          unit_type := pyTitle ty
          clear_time := parse_datetime u.clearDateTime
          arrive_time := parse_datetime u.arriveDateTime
          enroute_time := parse_datetime u.enrouteDateTime
          jurisdiction := u.jurisdiction
          is_primary := u.isPrimary == some (str "true") }
      let prim2 := if d.is_primary then some d else prim
      let acc2 :=
        if cfg.excluded_units.contains (lowerStr d.unit_type) then acc else acc ++ [d]
      extractUnitsGo cfg rest acc2 prim2

/-- `extract_xml_data` (lines 184-247).  An empty file, an unparsable
document, or any exception inside the big `try` produces the 9-value error
tuple. -/
def extract_xml_data (cfg : Config) (f : XmlFile) : ExtractResult :=
  match f.content with
  | .empty => .errTuple
  | .malformed => .errTuple
  | .doc d =>
    let nature := firstSome (fun c => c.callType) d.agencyContexts
    let latLonLoc : Option Str × Option Str × Option Str :=
      match d.fullAddress with
      | none => (none, none, none)
      | some loc =>
        match searchTagNum (str "LAT:") loc, searchTagNum (str "LON:") loc with
        | some la, some lo =>
          let locA := remove_address_numbers loc
          let parts := splitOnCharGo ',' locA
          (some la, some lo, some (pyStrip (joinWith (str ", ") parts.tail)))
        | _, _ => (none, none, some loc)
    match extractAgencyContexts d.agencyContexts with
    | none => .errTuple
    | some acs =>
      match extractUnitsGo cfg d.assignedUnits [] none with
      | none => .errTuple
      | some units =>
        .ok
          { call_number := d.callNumber
            close_datetime := d.closeDateTime
            agency_contexts := acs
            location := latLonLoc.2.2
            nature_of_call := nature
            unit_details := units.1
            primary_unit := units.2
            latitude := latLonLoc.1
            longitude := latLonLoc.2.1
            createDateTime := d.createDateTime }

/-! ### Python dictionaries

Insertion-ordered association lists: lookup finds the first matching key,
update replaces the value in place, a fresh key is appended. -/
abbrev PyDict (κ ν : Type) := List (κ × ν)

def pyGet? {κ ν : Type} [BEq κ] (d : PyDict κ ν) (k : κ) : Option ν :=
  match d.find? (fun p => p.1 == k) with
  | some p => some p.2
  | none => none

def pyInsert {κ ν : Type} [BEq κ] : PyDict κ ν → κ → ν → PyDict κ ν
  | [], k, v => [(k, v)]
  | p :: rest, k, v => if p.1 == k then (k, v) :: rest else p :: pyInsert rest k v

def pyErase {κ ν : Type} [BEq κ] (d : PyDict κ ν) (k : κ) : PyDict κ ν :=
  d.filter (fun p => !(p.1 == k))

def pyContains {κ ν : Type} [BEq κ] (d : PyDict κ ν) (k : κ) : Bool :=
  (pyGet? d k).isSome

/-! ### Unit merge engine (`merge_unit_details`, lines 266-282) -/
/-- Line 267: `{unit['unit_id']: unit for unit in existing_units}`. -/
def buildUnitsDict (units : List UnitDetail) : PyDict (Option Str) UnitDetail :=
  units.foldl (fun d u => pyInsert d u.unit_id u) []

/-- One timestamp field: replaced by the incoming value only when the
incoming value is non-null and (the existing is null or incoming is
strictly later). -/
def mergeTimeField (e n : Option Int) : Option Int :=
  match n with
  | none => e
  | some a =>
    match e with
    | none => some a
    | some b => if b < a then some a else e

def updateUnitTimes (ex nu : UnitDetail) : UnitDetail :=
  { ex with
    arrive_time := mergeTimeField ex.arrive_time nu.arrive_time
    enroute_time := mergeTimeField ex.enroute_time nu.enroute_time
    clear_time := mergeTimeField ex.clear_time nu.clear_time }

/-- One iteration of the `for new_unit in new_units` loop. -/
def mergeStep (excluded : List Str) (d : PyDict (Option Str) UnitDetail)
    (nu : UnitDetail) : PyDict (Option Str) UnitDetail :=
  match pyGet? d nu.unit_id with
  | some ex => pyInsert d nu.unit_id (updateUnitTimes ex nu)
  | none =>
    if excluded.contains (lowerStr nu.unit_type) then d
    else pyInsert d nu.unit_id nu

/-- `merge_unit_details(existing_units, new_units)`; `excluded` is
`config['excluded_units']`. -/
def merge_unit_details (excluded : List Str) (existing new : List UnitDetail) :
    List UnitDetail :=
  (new.foldl (mergeStep excluded) (buildUnitsDict existing)).map (fun p => p.2)

/-! ### Classification (lines 382-440 of `process_xml_files`)

The per-file classification block is factored into `classify`.  Crash
points inside it (an `AttributeError` from `unit['unit_id'].lower()` on a
null identifier, or from `nature_of_call.lower()` on a null call type) are
caught by the per-file handler of line 475: the file is skipped without
being marked for deletion. -/
inductive DropReason
  | excludedPrimaryUnitType
  | excludedUnitPresent
  | agencyIsEMS
  | agencyIsPoliceNoFire
  | excludedCallType
deriving DecidableEq, Repr

inductive ClassifyResult
  | crash
  | drop (r : DropReason)
  | keep (nc : Str)
deriving DecidableEq, Repr

structure DispatchFlags where
  fire : Bool
  ems : Bool
  police : Bool
  hasExcluded : Bool
  effPrimary : Option UnitDetail
deriving DecidableEq, Repr

def fireTypes : List Str :=
  [str "engine", str "rescue", str "tanker", str "quint", str "truck", str "lo",
   str "rit", str "fire police", str "traffic", str "fire tone", str "chief"]

def emsTypes : List Str :=
  [str "micu", str "ambulance", str "intermediate", str "medic", str "ems tone",
   str "ems page"]

/-- The unit scan of lines 387-402: dispatch-category flags, excluded-unit
glob detection, and reassignment of the primary unit from the kept unit
list; `none` models the `AttributeError` on a null `unit_id`. -/
def scanUnitsGo (cfg : Config) : List UnitDetail → DispatchFlags → Option DispatchFlags
  | [], fl => some fl
  | u :: rest, fl =>
    match u.unit_id with
    | none => none
    | some uid =>
      let ty := lowerStr u.unit_type
      let fl1 :=
        if fireTypes.contains ty then { fl with fire := true }
        else if emsTypes.contains ty then { fl with ems := true }
        else if ty == str "police officer" then { fl with police := true }
        else fl
      let fl2 :=
        if is_excluded_unit (lowerStr uid) cfg.excluded_units then
          { fl1 with hasExcluded := true }
        else fl1
      let fl3 := if u.is_primary then { fl2 with effPrimary := some u } else fl2
      scanUnitsGo cfg rest fl3

/-- The drop-rule chain of lines 417-440, evaluated in source order with
first match winning; reaching the excluded-call-type test with a null call
type raises (`.crash`). -/
def classifyChecks (cfg : Config) (pud : PyDict Str Str) (cn : Str)
    (fl : DispatchFlags) (pu : Option UnitDetail) (nature : Option Str) :
    ClassifyResult :=
  if (match pu with
      | some p => cfg.excluded_unit_types.contains (lowerStr p.unit_type)
      | none => false) then
    .drop .excludedPrimaryUnitType
  else if fl.hasExcluded then .drop .excludedUnitPresent
  else if pyGet? pud cn == some (str "EMS") then .drop .agencyIsEMS
  else if pyGet? pud cn == some (str "Police") && !fl.fire then
    .drop .agencyIsPoliceNoFire
  else
    match nature with
    | none => .crash
    | some nc =>
      if cfg.excluded_call_types.contains (lowerStr nc) then .drop .excludedCallType
      else .keep nc

/-- Classification of one snapshot (lines 382-440).  Returns the updated
`primary_units` dictionary (line 413 runs before the checks, so even a
dropped or crashed file can record its agency type) and the decision.
When a primary unit exists, line 415 interpolates `nature_of_call.lower()`
into a log message, so a null call type crashes there — after the
dictionary update. -/
def classify (cfg : Config) (primaryUnits : PyDict Str Str) (cn : Str)
    (s : Snapshot) : PyDict Str Str × ClassifyResult :=
  match scanUnitsGo cfg s.unit_details
      { fire := false, ems := false, police := false, hasExcluded := false,
        effPrimary := s.primary_unit } with
  | none => (primaryUnits, .crash)
  | some fl =>
    match fl.effPrimary with
    | some pu =>
      let agency :=
        match pu.jurisdiction with
        | none => str ""
        | some j => (pyGet? cfg.jurisdiction_company_mapping j).getD (str "")
      let fl2 :=
        if agency == str "EMS" then { fl with ems := true }
        else if agency == str "Police" then { fl with police := true }
        else fl
      let pud := pyInsert primaryUnits cn agency
      match s.nature_of_call with
      | none => (pud, .crash)
      | some _ => (pud, classifyChecks cfg pud cn fl2 (some pu) s.nature_of_call)
    | none =>
      (primaryUnits, classifyChecks cfg primaryUnits cn fl none s.nature_of_call)

/-! ### Aggregation pass (`process_xml_files`, lines 332-488) -/
inductive PyErr
  | valueError
  | keyError
  | indexError
deriving DecidableEq, Repr

/-- A location-keyed incident group (the per-location dictionary of lines
462-470); `call_number` is the joined display identifier added at line 484
(absent, i.e. `""`, until then). -/
structure IncidentGroup where
  call_numbers : List Str
  location : Str
  create_date_time : Str
  nature_of_call : Str
  unit_details : List UnitDetail
  latitude : Option Str
  longitude : Option Str
  call_number : Str := []
deriving DecidableEq, Repr

structure PassState where
  location_calls : PyDict Str IncidentGroup
  processed : List Str
  latest : PyDict Str Str
  files_to_delete : List Str
  primary_units : PyDict Str Str
  call_display_times : PyDict Str Int
deriving DecidableEq, Repr

/-- The filename pattern of line 353:
`^(\d+)_(\d+)\.xml(?:-\d+\.backup)?$`, returning the two digit groups. -/
def parseStagedName (name : Str) : Option (Str × Str) :=
  let d1 := name.takeWhile isDigitChar
  if d1.isEmpty then none
  else
    match name.drop d1.length with
    | '_' :: r2 =>
      let d2 := r2.takeWhile isDigitChar
      if d2.isEmpty then none
      else
        let r3 := r2.drop d2.length
        if r3 == str ".xml" then some (d1, d2)
        else if litMatch (str ".xml-") r3 0 then
          let r4 := r3.drop 5
          let d3 := r4.takeWhile isDigitChar
          if !d3.isEmpty && r4.drop d3.length == str ".backup" then some (d1, d2)
          else none
        else none
    | _ => none

/-- `os.path.splitext(...)[0]`: drop from the last dot on (no dot: the
whole name). -/
def splitextStem (name : Str) : Str :=
  let idx := name.reverse.findIdx (fun c => c == '.')
  if idx == name.length then name else name.take (name.length - idx - 1)

/-- Line 368: `int(os.path.splitext(os.path.basename(stored))[0].split('_')[1])`.
A stored backup-suffixed name makes `int` fail (`ValueError`, not caught —
it aborts the pass); a stem without an underscore would be an
`IndexError`. -/
def prevSeqOf (name : Str) : Except PyErr Int :=
  match (splitOnCharGo '_' (splitextStem name)).get? 1 with
  | none => .error .indexError
  | some snd =>
    match pyInt snd with
    | some n => .ok n
    | none => .error .valueError

/-- The closed-call discovery loop (lines 341-345).  The 10-name unpacking
of line 342 raises `ValueError` on the 9-value error tuple, so one bad file
aborts the whole pass here. -/
def closedCallsGo (cfg : Config) : List XmlFile → List Str → Except PyErr (List Str)
  | [], acc => .ok acc
  | f :: rest, acc =>
    match extract_xml_data cfg f with
    | .errTuple => .error .valueError
    | .ok s =>
      if truthy s.call_number && truthy s.close_datetime then
        closedCallsGo cfg rest (acc ++ [s.call_number.getD []])
      else closedCallsGo cfg rest acc

def closedCalls (cfg : Config) (files : List XmlFile) : Except PyErr (List Str) :=
  closedCallsGo cfg files []

/-- `convert_utc_to_est_time` (lines 284-288): `None` renders as `""`; the
`strftime` rendering of an instant is abstracted to an injective textual
code (nothing downstream inspects it). -/
def convert_utc_to_est_time : Option Int → Str
  | none => []
  | some t => str "t:" ++ (toString t).data

/-- Lines 442-473: the keep path of one file — creation-time string,
display location, location-keyed grouping, and first-display registration.
A null location crashes in `remove_address_numbers` (line 445) and the
per-file handler skips the file. -/
def keepStep (cfg : Config) (now : Int) (f : XmlFile) (s : Snapshot) (cn : Str)
    (nc : Str) (st : PassState) : PassState :=
  let _ := f
  let cdt :=
    match s.createDateTime with
    | none => ([] : Str)
    | some txt => convert_utc_to_est_time (parse_datetime txt)
  match s.location with
  | none => st
  | some loc =>
    let lwn := remove_address_numbers loc
    let display :=
      if truthy s.latitude && truthy s.longitude then
        lwn ++ str ", LAT: " ++ s.latitude.getD [] ++ str ", LON: " ++ s.longitude.getD []
      else lwn
    let st1 :=
      match pyGet? st.location_calls loc with
      | some g =>
        let g1 :=
          if g.call_numbers.contains cn then g
          else { g with call_numbers := g.call_numbers ++ [cn] }
        let g2 :=
          if isSubstr nc g1.nature_of_call then g1
          else { g1 with nature_of_call := g1.nature_of_call ++ str ", " ++ nc }
        let g3 :=
          { g2 with
            unit_details := merge_unit_details cfg.excluded_units g2.unit_details s.unit_details }
        { st with location_calls := pyInsert st.location_calls loc g3 }
      | none =>
        let g : IncidentGroup :=
          { call_numbers := [cn], location := display, create_date_time := cdt,
            nature_of_call := nc, unit_details := s.unit_details,
            latitude := s.latitude, longitude := s.longitude }
        { st with location_calls := pyInsert st.location_calls loc g }
    if pyContains st1.call_display_times cn then st1
    else { st1 with call_display_times := pyInsert st1.call_display_times cn now }

/-- One iteration of the main per-file loop (lines 347-476).  The
`os.path.exists` test is `true` in the model (the pass is handed the staged
files); the 10-name unpacking of line 359 raises on the error tuple and
aborts the pass. -/
def processFileStep (cfg : Config) (now : Int) (closed : List Str) (st : PassState)
    (f : XmlFile) : Except PyErr PassState :=
  match parseStagedName f.name with
  | none => .ok st
  | some pr =>
    match extract_xml_data cfg f with
    | .errTuple => .error .valueError
    | .ok s =>
      if truthy s.call_number then
        let cn := s.call_number.getD []
        if closed.contains cn then
          .ok { st with
                files_to_delete := st.files_to_delete ++ [f.name],
                call_display_times :=
                  if pyContains st.call_display_times cn then
                    pyErase st.call_display_times cn
                  else st.call_display_times }
        else
          let current : Int := (digitsToNat pr.2 : Int)
          match prevSeqOf ((pyGet? st.latest cn).getD (str "0_0.xml")) with
          | .error e => .error e
          | .ok previous =>
            if st.processed.contains cn && !(decide (previous < current)) then .ok st
            else
              match
                (if st.processed.contains cn then
                  match pyGet? st.latest cn with
                  | some old => Except.ok (st.files_to_delete ++ [old])
                  | none => Except.error PyErr.keyError
                else Except.ok st.files_to_delete) with
              | .error e => .error e
              | .ok dels1 =>
                let st1 :=
                  { st with
                    files_to_delete := dels1,
                    processed :=
                      if st.processed.contains cn then st.processed
                      else st.processed ++ [cn],
                    latest := pyInsert st.latest cn f.name }
                let cl := classify cfg st1.primary_units cn s
                let st2 := { st1 with primary_units := cl.1 }
                match cl.2 with
                | .crash => .ok st2
                | .drop _ =>
                  .ok { st2 with files_to_delete := st2.files_to_delete ++ [f.name] }
                | .keep nc => .ok (keepStep cfg now f s cn nc st2)
      else .ok st

def passLoop (cfg : Config) (now : Int) (closed : List Str) :
    List XmlFile → PassState → Except PyErr PassState
  | [], st => .ok st
  | f :: rest, st =>
    match processFileStep cfg now closed st f with
    | .error e => .error e
    | .ok st2 => passLoop cfg now closed rest st2

/-- The post-processing filter of lines 478-479. -/
def filterGroupUnits (cfg : Config) (g : IncidentGroup) : IncidentGroup :=
  { g with
    unit_details := g.unit_details.filter (fun u =>
      u.clear_time == none && !cfg.excluded_units.contains (lowerStr u.unit_type)) }

/-- The sort key of line 481: `int(x['call_numbers'][0])`; both failure
modes abort the pass. -/
def groupSortKey (g : IncidentGroup) : Except PyErr Int :=
  match g.call_numbers with
  | [] => .error .indexError
  | c :: _ =>
    match pyInt c with
    | some n => .ok n
    | none => .error .valueError

def keyAll : List IncidentGroup → Except PyErr (List (Int × IncidentGroup))
  | [] => .ok []
  | g :: rest =>
    match groupSortKey g with
    | .error e => .error e
    | .ok k =>
      match keyAll rest with
      | .error e => .error e
      | .ok l => .ok ((k, g) :: l)

/-- Stable descending insertion (Python `sorted(..., reverse=True)` keeps
the original order of equal keys). -/
def insertDesc (x : Int × IncidentGroup) :
    List (Int × IncidentGroup) → List (Int × IncidentGroup)
  | [] => [x]
  | y :: ys => if decide (y.1 ≤ x.1) then x :: y :: ys else y :: insertDesc x ys

def sortDesc : List (Int × IncidentGroup) → List (Int × IncidentGroup)
  | [] => []
  | x :: xs => insertDesc x (sortDesc xs)

/-- Line 484: the joined display identifier. -/
def joinCallNumbers (g : IncidentGroup) : IncidentGroup :=
  { g with call_number := joinWith (str ", ") g.call_numbers }

structure PassOutput where
  calls : List IncidentGroup
  files_to_delete : List Str
  call_display_times : PyDict Str Int
deriving DecidableEq, Repr

/-- `process_xml_files` (lines 332-488).  `reg` is the shared
`call_display_times` registry on entry, threaded out in the result; `now`
is the current time used for first-display registration.  A raised
exception (`.error`) models the pass aborting. -/
def process_xml_files (cfg : Config) (now : Int) (reg : PyDict Str Int)
    (files : List XmlFile) : Except PyErr PassOutput :=
  match closedCalls cfg files with
  | .error e => .error e
  | .ok closed =>
    match passLoop cfg now closed files
        { location_calls := [], processed := [], latest := [],
          files_to_delete := [], primary_units := [], call_display_times := reg } with
    | .error e => .error e
    | .ok st =>
      let filtered := st.location_calls.map (fun p => filterGroupUnits cfg p.2)
      match keyAll filtered with
      | .error e => .error e
      | .ok pairs =>
        .ok
          { calls := (sortDesc pairs).map (fun p => joinCallNumbers p.2),
            files_to_delete := st.files_to_delete,
            call_display_times := st.call_display_times }

/-! ### Retention sweeper (`cleanup_old_calls`, lines 299-324) -/
def endsWithXml (name : Str) : Bool := name.reverse.take 4 == str "lmx."

/-- The per-expired-call directory scan (lines 315-321): each `.xml` file
is re-extracted; a matching call number deletes the file; the 10-name
unpacking of line 318 raises on the error tuple, aborting the whole tick
(`true` flags the abort; already-deleted files stay deleted). -/
def cleanupScanGo (cfg : Config) (cn : Str) :
    List XmlFile → List XmlFile → List XmlFile × Bool
  | [], kept => (kept, false)
  | f :: rest, kept =>
    if endsWithXml f.name then
      match extract_xml_data cfg f with
      | .errTuple => (kept ++ f :: rest, true)
      | .ok s =>
        if s.call_number == some cn then cleanupScanGo cfg cn rest kept
        else cleanupScanGo cfg cn rest (kept ++ [f])
    else cleanupScanGo cfg cn rest (kept ++ [f])

/-- The expiry loop (lines 313-321): each expired call number is removed
from the registry, then its backing files are deleted; an exception stops
the tick with the partial state kept. -/
def cleanupRemoveGo (cfg : Config) :
    List Str → PyDict Str Int → List XmlFile → PyDict Str Int × List XmlFile
  | [], reg, files => (reg, files)
  | cn :: rest, reg, files =>
    let reg1 := pyErase reg cn
    match cleanupScanGo cfg cn files [] with
    | (files1, true) => (reg1, files1)
    | (files1, false) => cleanupRemoveGo cfg rest reg1 files1

/-- One tick of `cleanup_old_calls` (lines 301-321): expiry is
`(now - display_time) // timedelta(minutes=1) > 360`, i.e. floor-minutes
strictly above 360. -/
def cleanup_old_calls_tick (cfg : Config) (now : Int) (reg : PyDict Str Int)
    (files : List XmlFile) : PyDict Str Int × List XmlFile :=
  let to_remove :=
    (reg.filter (fun p => decide (Int.fdiv (now - p.2) 60 > 360))).map (fun p => p.1)
  cleanupRemoveGo cfg to_remove reg files

instance {ε α : Type} [DecidableEq ε] [DecidableEq α] : DecidableEq (Except ε α) :=
  fun x y =>
    match x, y with
    | .error a, .error b =>
      if h : a = b then isTrue (by rw [h])
      else isFalse (fun hh => by cases hh; exact h rfl)
    | .ok a, .ok b =>
      if h : a = b then isTrue (by rw [h])
      else isFalse (fun hh => by cases hh; exact h rfl)
    | .error _, .ok _ => isFalse (fun hh => by cases hh)
    | .ok _, .error _ => isFalse (fun hh => by cases hh)

/-! ### Concrete fixtures used by the claim checks -/
/-- A policy configuration with empty exclusion tables. -/
def cfg0 : Config :=
  { excluded_units := [], excluded_unit_types := [], excluded_call_types := [],
    jurisdiction_company_mapping := [] }

/-- An assigned unit with the given identifier and type and no timestamps. -/
def rawUnit (id ty : String) : RawUnit :=
  { unitNumber := some (str id), unitTypeText := some (str ty), clearDateTime := none,
    arriveDateTime := none, enrouteDateTime := none, jurisdiction := none,
    isPrimary := none }

def fireContext (ct : String) : RawAgencyContext :=
  { agencyType := some (str "fire"), callType := some (str ct), status := none }

/-- Call 100, one engine, kept by every rule of `cfg0`. -/
def docA : CallDoc :=
  { callNumber := some (str "100"), closeDateTime := none,
    fullAddress := some (str "Mainst"), agencyContexts := [fireContext "alarm"],
    assignedUnits := [rawUnit "e1" "engine"], createDateTime := none }

def engineUnitDetail : UnitDetail :=
  { unit_id := some (str "e1"), unit_type := str "Engine", clear_time := none,
    arrive_time := none, enroute_time := none, jurisdiction := none,
    is_primary := false }

def groupA : IncidentGroup :=
  { call_numbers := [str "100"], location := str "Mainst", create_date_time := [],
    nature_of_call := str "alarm", unit_details := [engineUnitDetail],
    latitude := none, longitude := none, call_number := str "100" }

/-- A file whose second unit is missing its `Type` sub-field but whose call
number and first unit are intact. -/
def c2doc : CallDoc :=
  { callNumber := some (str "12"), closeDateTime := none,
    fullAddress := some (str "Mainst"), agencyContexts := [fireContext "alarm"],
    assignedUnits :=
      [rawUnit "e1" "engine",
       { unitNumber := some (str "e2"), unitTypeText := none, clearDateTime := none,
         arriveDateTime := none, enrouteDateTime := none, jurisdiction := none,
         isPrimary := none }],
    createDateTime := none }

/-- A closed call (5) arriving in a file whose name does not match the
`<digits>_<digits>.xml` pattern. -/
def c3doc : CallDoc :=
  { callNumber := some (str "5"), closeDateTime := some (str "9"),
    fullAddress := none, agencyContexts := [], assignedUnits := [],
    createDateTime := none }

def c3badFile : XmlFile := { name := str "bad.xml", content := .doc c3doc }

def c4fileSeq (n : String) : XmlFile :=
  { name := str ("100_" ++ n ++ ".xml"), content := .doc docA }

def c4outA : PassOutput :=
  { calls := [groupA], files_to_delete := [str "100_1.xml"],
    call_display_times := [(str "100", (7 : Int))] }

def c4outB : PassOutput :=
  { calls := [groupA], files_to_delete := [],
    call_display_times := [(str "100", (7 : Int))] }

/-- The address of the C7 round-trip example, staged as call 9. -/
def c7doc : CallDoc :=
  { callNumber := some (str "9"), closeDateTime := none,
    fullAddress := some (str "123 Apt 4 Main St, LAT: 39.1, LON: -77.2"),
    agencyContexts := [fireContext "odor"], assignedUnits := [rawUnit "e1" "engine"],
    createDateTime := none }

def c7file : XmlFile := { name := str "9_1.xml", content := .doc c7doc }

def c7group : IncidentGroup :=
  { call_numbers := [str "9"],
    location := str "LAT: .,  LON: -., LAT: 39.1, LON: -77.2",
    create_date_time := [], nature_of_call := str "odor",
    unit_details := [engineUnitDetail], latitude := some (str "39.1"),
    longitude := some (str "-77.2"), call_number := str "9" }

def c7out : PassOutput :=
  { calls := [c7group], files_to_delete := [],
    call_display_times := [(str "9", (0 : Int))] }

/-- The snapshot that `extract_xml_data` produces for `c7file`. -/
def c7snap : Snapshot :=
  { call_number := some (str "9"), close_datetime := none,
    agency_contexts := [{ agency_type := str "fire", call_type := some (str "odor"),
                          status := none }],
    location := some (str "LAT: .,  LON: -."), nature_of_call := some (str "odor"),
    unit_details := [engineUnitDetail], primary_unit := none,
    latitude := some (str "39.1"), longitude := some (str "-77.2"),
    createDateTime := none }

def c8doc : CallDoc :=
  { callNumber := some (str "7"), closeDateTime := none, fullAddress := none,
    agencyContexts := [], assignedUnits := [], createDateTime := none }

def c8file : XmlFile := { name := str "7_1.xml", content := .doc c8doc }

/-- Exclusion set containing the primary unit's type for the C10 check. -/
def cfg10 : Config :=
  { excluded_units := [str "chopper"], excluded_unit_types := [],
    excluded_call_types := [], jurisdiction_company_mapping := [] }

def c10doc : CallDoc :=
  { callNumber := some (str "42"), closeDateTime := none, fullAddress := none,
    agencyContexts := [],
    assignedUnits :=
      [{ unitNumber := some (str "h1"), unitTypeText := some (str "chopper"),
         clearDateTime := none, arriveDateTime := none, enrouteDateTime := none,
         jurisdiction := none, isPrimary := some (str "true") },
       rawUnit "e1" "engine"],
    createDateTime := none }

def c10snap : Snapshot :=
  { call_number := some (str "42"), close_datetime := none, agency_contexts := [],
    location := none, nature_of_call := none, unit_details := [engineUnitDetail],
    primary_unit := some
      { unit_id := some (str "h1"), unit_type := str "Chopper", clear_time := none,
        arrive_time := none, enroute_time := none, jurisdiction := none,
        is_primary := true },
    latitude := none, longitude := none, createDateTime := none }

def unitNoType : RawUnit :=
  { unitNumber := some (str "e2"), unitTypeText := none, clearDateTime := none,
    arriveDateTime := none, enrouteDateTime := none, jurisdiction := none,
    isPrimary := none }

/-! ### Claim C5: the unit merge never moves a timestamp backward -/
/-- How one timestamp field may change across a merge: unchanged, filled in
from null, or strictly increased. -/
def timeEvolves (x y : Option Int) : Prop :=
  y = x ∨ (x = none ∧ ∃ b, y = some b) ∨ ∃ a b, x = some a ∧ y = some b ∧ a < b

/-- How a stored unit may change across a merge: every timestamp field
evolves. -/
def unitEvolves (u v : UnitDetail) : Prop :=
  timeEvolves u.enroute_time v.enroute_time ∧
    timeEvolves u.arrive_time v.arrive_time ∧
    timeEvolves u.clear_time v.clear_time

/-- The conclusion of claim C5 for the stored unit `e` and the merged unit
`v`: each field is replaced only by a non-null strictly later value (so a
changed field means the old value was null or strictly smaller), and in
particular the merge never moves a non-null timestamp backward. -/
def mergeMonotoneProp (e v : UnitDetail) : Prop :=
  unitEvolves e v ∧
    (∀ a b, e.enroute_time = some a → v.enroute_time = some b → a ≤ b) ∧
    (∀ a b, e.arrive_time = some a → v.arrive_time = some b → a ≤ b) ∧
    (∀ a b, e.clear_time = some a → v.clear_time = some b → a ≤ b)

/-- Invariant of the unit dictionary: every stored unit carries its own
key. -/
def keyedUnits (d : PyDict (Option Str) UnitDetail) : Prop :=
  ∀ p ∈ d, p.2.unit_id = p.1

def c5unitOld : UnitDetail :=
  { unit_id := some (str "m1"), unit_type := str "Medic", clear_time := some 5,
    arrive_time := none, enroute_time := some 3, jurisdiction := none,
    is_primary := false }

def c5unitNew : UnitDetail :=
  { unit_id := some (str "m1"), unit_type := str "Medic", clear_time := some 9,
    arrive_time := some 2, enroute_time := some 1, jurisdiction := none,
    is_primary := false }

/-- The merge of `c5unitNew` into `c5unitOld`: clear strictly advanced,
arrive filled from null, enroute kept (the incoming value is earlier). -/
def c5unitMerged : UnitDetail :=
  { unit_id := some (str "m1"), unit_type := str "Medic", clear_time := some 9,
    arrive_time := some 2, enroute_time := some 3, jurisdiction := none,
    is_primary := false }

/-! ### Claim C6: drop rules are evaluated in order, first match wins -/
/-- The flag record the classification scan starts from (lines 382-385 plus
the `primary_unit` returned by the extractor). -/
def initFlags (s : Snapshot) : DispatchFlags :=
  { fire := false, ems := false, police := false, hasExcluded := false,
    effPrimary := s.primary_unit }

/-- What reaching the excluded-call-type test (step 8) implies: the
primary-unit-type, excluded-unit, EMS-agency and police-without-fire
checks all failed to match. -/
def reachedCallTypeCheckProp (cfg : Config) (pud : PyDict Str Str) (cn : Str)
    (fl : DispatchFlags) (pu : Option UnitDetail) : Prop :=
  (∀ p, pu = some p → cfg.excluded_unit_types.contains (lowerStr p.unit_type) = false) ∧
    fl.hasExcluded = false ∧
    pyGet? pud cn ≠ some (str "EMS") ∧
    ¬(pyGet? pud cn = some (str "Police") ∧ fl.fire = false)

def cfg6 : Config :=
  { excluded_units := [], excluded_unit_types := [str "engine"],
    excluded_call_types := [str "alarm"], jurisdiction_company_mapping := [] }

def c6primUnit : UnitDetail :=
  { unit_id := some (str "e1"), unit_type := str "Engine", clear_time := none,
    arrive_time := none, enroute_time := none, jurisdiction := none,
    is_primary := true }

/-- A snapshot whose primary unit type AND call-type text are both
excluded: precedence decides. -/
def c6snap : Snapshot :=
  { call_number := some (str "77"), close_datetime := none, agency_contexts := [],
    location := none, nature_of_call := some (str "alarm"),
    unit_details := [c6primUnit], primary_unit := none, latitude := none,
    longitude := none, createDateTime := none }

def c6flags : DispatchFlags :=
  { fire := true, ems := false, police := false, hasExcluded := false,
    effPrimary := some c6primUnit }

def c6flagsNone : DispatchFlags :=
  { fire := false, ems := false, police := false, hasExcluded := false,
    effPrimary := none }

/-- A file whose cleared tanker unit and live engine unit exercise the
final filter. -/
def c9doc : CallDoc :=
  { callNumber := some (str "55"), closeDateTime := none,
    fullAddress := some (str "Elmroad"), agencyContexts := [fireContext "smoke"],
    assignedUnits :=
      [rawUnit "e1" "engine",
       { unitNumber := some (str "t1"), unitTypeText := some (str "tanker"),
         clearDateTime := some (str "44"), arriveDateTime := none,
         enrouteDateTime := none, jurisdiction := none, isPrimary := none }],
    createDateTime := none }

def c9file : XmlFile := { name := str "55_1.xml", content := .doc c9doc }

def c9out : PassOutput :=
  { calls :=
      [{ call_numbers := [str "55"], location := str "Elmroad",
         create_date_time := [], nature_of_call := str "smoke",
         unit_details := [engineUnitDetail], latitude := none, longitude := none,
         call_number := str "55" }],
    files_to_delete := [],
    call_display_times := [(str "55", (3 : Int))] }

/-! ### Claim C3: closed calls are purged (pass-wide invariants) -/
/-- No group of the pass state carries a closed call number. -/
def GroupsOK (closed : List Str) (st : PassState) : Prop :=
  ∀ p ∈ st.location_calls, ∀ c ∈ p.2.call_numbers, c ∉ closed

/-- What one accepted loop iteration preserves: the delete set only grows,
a closed call number absent from the registry stays absent, and no closed
call number enters a group. -/
def StepOK (closed : List Str) (st st2 : PassState) : Prop :=
  (∀ x ∈ st.files_to_delete, x ∈ st2.files_to_delete) ∧
    (∀ c ∈ closed, pyGet? st.call_display_times c = none →
      pyGet? st2.call_display_times c = none) ∧
    (GroupsOK closed st → GroupsOK closed st2)

/-- C3 witness fixture: the closed call staged under a well-formed name. -/
def c3goodFile : XmlFile := { name := str "5_1.xml", content := .doc c3doc }

/-- The snapshot extracted from `c3goodFile`. -/
def c3snap : Snapshot :=
  { call_number := some (str "5"), close_datetime := some (str "9"),
    agency_contexts := [], location := none, nature_of_call := none,
    unit_details := [], primary_unit := none, latitude := none, longitude := none,
    createDateTime := none }

def c3wOut : PassOutput :=
  { calls := [], files_to_delete := [str "5_1.xml"], call_display_times := [] }

/-- Whether the retention scan would match file `f` against call number
`cn`: the file extracts successfully and its call number equals `cn`. -/
def scanMatches (cfg : Config) (cn : Str) (f : XmlFile) : Bool :=
  match extract_xml_data cfg f with
  | .errTuple => false
  | .ok s => s.call_number == some cn

/-! ## Lemmas and claim theorems -/

/-- Claim C1: the Aggregation Pass never raises; a parse error on one file
is caught and that file alone is skipped.

The code disagrees: the error paths of `extract_xml_data` (lines 188, 244,
247) return 9 values while the success path returns 10, so the 10-name
unpacking at line 342 raises `ValueError` as soon as one staged file is
empty or unparsable, aborting the whole pass.  This theorem evaluates the
pass at the failing input: a single empty staged file. -/
theorem c1_pass_raises_on_empty_file :
    process_xml_files cfg0 0 [] [{ name := str "1_1.xml", content := .empty }] =
      .error .valueError := by decide

/-- Claim C2 counterexample: a unit missing its `Type` sub-field does NOT
merely skip that unit — `unit.findtext('nw:Type').title()` (line 228)
raises `AttributeError`, the file-level handler catches it, and the whole
file yields the error tuple instead of a usable snapshot (the call number
and the intact first unit are lost for this pass). -/
theorem c2_counterexample_missing_type_fails_whole_file :
    extract_xml_data cfg0 { name := str "12_1.xml", content := .doc c2doc } =
      .errTuple := by decide

/-- Claim C3 counterexample: call 5 is in the closed-call set, yet because
its only staged file fails the filename pattern of line 353, the second
loop `continue`s before the closed-call branch: the file is NOT added to
the delete set and the registry entry for 5 is NOT removed. -/
theorem c3_counterexample_unmatched_filename_not_deleted :
    closedCalls cfg0 [c3badFile] = .ok [str "5"] ∧
      process_xml_files cfg0 0 [(str "5", (0 : Int))] [c3badFile] =
        .ok { calls := [], files_to_delete := [],
              call_display_times := [(str "5", (0 : Int))] } := by decide

/-- Claim C4 counterexample: `100_10.xml` sorts lexicographically before
`100_2.xml`, so the lower-sequence file arrives later in iteration order
for an already-processed call identifier; the claim says it "is marked for
deletion and skipped", but line 374 only `continue`s — the delete set is
empty. -/
theorem c4_counterexample_stale_file_not_deleted :
    process_xml_files cfg0 7 [] [c4fileSeq "10", c4fileSeq "2"] = .ok c4outB ∧
      (str "100_2.xml") ∉ c4outB.files_to_delete := by decide

/-- Claim C4 amended: the pass keeps, per call identifier, the data of the
highest-sequence file among those it accepts in iteration order; a newer
file superseding a previously accepted one marks the older file for
deletion (for `100_1.xml` then `100_2.xml`, `100_1.xml` ends up in the
delete set and `100_2.xml`'s snapshot is the one processed into the
group), while an older file arriving after a higher-sequence one is
skipped WITHOUT being marked for deletion (for `100_10.xml` then
`100_2.xml` the delete set stays empty). -/
theorem c4_amended_sequence_tracking :
    (process_xml_files cfg0 7 [] [c4fileSeq "1", c4fileSeq "2"] = .ok c4outA ∧
      (str "100_1.xml") ∈ c4outA.files_to_delete) ∧
      process_xml_files cfg0 7 [] [c4fileSeq "10", c4fileSeq "2"] = .ok c4outB := by
  decide

/-- Claim C7 counterexample: for the input
`"123 Apt 4 Main St, LAT: 39.1, LON: -77.2"` the display location is NOT
`"Main St, LAT: 39.1, LON: -77.2"`: the digit strip also consumes the
coordinate digits embedded in the address text and the first comma segment
dropped is `"Main St"` itself, so the pass displays
`"LAT: .,  LON: -., LAT: 39.1, LON: -77.2"`. -/
theorem c7_counterexample_display_location :
    process_xml_files cfg0 0 [] [c7file] = .ok c7out ∧
      ∀ g ∈ c7out.calls, g.location ≠ str "Main St, LAT: 39.1, LON: -77.2" := by
  decide

/-- Claim C7 amended: when both `LAT:` and `LON:` are found, the Address
Normalizer removes every digit run and every apartment/suite/unit/room
marker from the WHOLE string (coordinate digits included) and then drops
the first comma-delimited segment of the already-stripped text; on the
example input `remove_address_numbers` yields
`"Main St, LAT: ., LON: -."`, the snapshot's normalized location is
`"LAT: .,  LON: -."` (the `"Main St"` segment is the one dropped), and the
display location re-appends the separately captured coordinates, yielding
`"LAT: .,  LON: -., LAT: 39.1, LON: -77.2"`. -/
theorem c7_amended_address_normalization :
    remove_address_numbers (str "123 Apt 4 Main St, LAT: 39.1, LON: -77.2") =
        str "Main St, LAT: ., LON: -." ∧
      extract_xml_data cfg0 c7file = .ok c7snap ∧
      c7snap.location = some (str "LAT: .,  LON: -.") ∧
      ∀ g ∈ c7out.calls, g.location = str "LAT: .,  LON: -., LAT: 39.1, LON: -77.2" := by
  decide

/-- Claim C8 counterexample: at age 21630 seconds the call is 360.5 minutes
old — its age exceeds 360 minutes — yet
`(now - display_time) // timedelta(minutes=1)` is 360, not `> 360`, so the
sweep removes neither the registry entry nor the backing file. -/
theorem c8_counterexample_boundary_minute :
    ((21630 : Int) - 0) > 360 * 60 ∧
      Int.fdiv ((21630 : Int) - 0) 60 = 360 ∧
      cleanup_old_calls_tick cfg0 21630 [(str "7", (0 : Int))] [c8file] =
        ([(str "7", (0 : Int))], [c8file]) := by decide

/-- Claim C10: `extract_xml_data` records the primary unit before applying
the excluded-unit-type filter, so a primary-flagged unit whose type is
excluded is returned as `primary_unit` while being absent from
`unit_details`. -/
theorem c10_primary_unit_not_in_list :
    extract_xml_data cfg10 { name := str "42_1.xml", content := .doc c10doc } =
        .ok c10snap ∧
      ∃ u, c10snap.primary_unit = some u ∧ u ∉ c10snap.unit_details := by
  refine ⟨by decide, ?_⟩
  refine ⟨_, rfl, ?_⟩
  decide

/-! ### Dictionary lemmas -/
theorem pyGet?_cons {κ ν : Type} [BEq κ] (p : κ × ν) (rest : PyDict κ ν) (k : κ) :
    pyGet? (p :: rest) k = if p.1 == k then some p.2 else pyGet? rest k := by
  by_cases h : p.1 == k <;> simp [pyGet?, List.find?, h]

theorem pyGet?_pyInsert_self {κ ν : Type} [BEq κ] [LawfulBEq κ]
    (d : PyDict κ ν) (k : κ) (v : ν) : pyGet? (pyInsert d k v) k = some v := by
  induction d with
  | nil => simp [pyInsert, pyGet?_cons, pyGet?]
  | cons p rest ih =>
    by_cases h : p.1 == k
    · simp [pyInsert, h, pyGet?_cons]
    · simp [pyInsert, h, pyGet?_cons, ih]

theorem pyGet?_pyInsert_ne {κ ν : Type} [BEq κ] [LawfulBEq κ]
    (d : PyDict κ ν) (k k2 : κ) (v : ν) (h : k ≠ k2) :
    pyGet? (pyInsert d k v) k2 = pyGet? d k2 := by
  induction d with
  | nil =>
    simp only [pyInsert, pyGet?_cons, pyGet?]
    simp [beq_iff_eq, h]
  | cons p rest ih =>
    rw [pyInsert]
    by_cases hp : p.1 == k
    · have hp1 : p.1 = k := eq_of_beq hp
      have hk2 : ¬((k : κ) == k2) = true := by simp [beq_iff_eq, h]
      rw [if_pos hp, pyGet?_cons, pyGet?_cons, if_neg hk2, hp1, if_neg hk2]
    · rw [if_neg hp, pyGet?_cons, pyGet?_cons, ih]

theorem mem_pyInsert {κ ν : Type} [BEq κ] (d : PyDict κ ν) (k : κ) (v : ν)
    (p : κ × ν) (h : p ∈ pyInsert d k v) : p = (k, v) ∨ p ∈ d := by
  induction d with
  | nil => simp [pyInsert] at h; simp [h]
  | cons q rest ih =>
    by_cases hq : q.1 == k
    · simp only [pyInsert, hq, if_true] at h
      rcases List.mem_cons.mp h with h1 | h1
      · exact Or.inl h1
      · exact Or.inr (List.mem_cons_of_mem _ h1)
    · simp only [pyInsert, hq, if_false] at h
      rcases List.mem_cons.mp h with h1 | h1
      · exact Or.inr (h1 ▸ List.mem_cons_self _ _)
      · rcases ih h1 with h2 | h2
        · exact Or.inl h2
        · exact Or.inr (List.mem_cons_of_mem _ h2)

theorem pyGet?_pyErase_self {κ ν : Type} [BEq κ] [LawfulBEq κ]
    (d : PyDict κ ν) (k : κ) : pyGet? (pyErase d k) k = none := by
  induction d with
  | nil => rfl
  | cons p rest ih =>
    by_cases hp : p.1 == k
    · simp [pyErase, List.filter, hp] at ih ⊢
      exact ih
    · simp only [pyErase, List.filter, hp, Bool.not_false] at ih ⊢
      simp [pyGet?_cons, hp, ih]

theorem pyGet?_pyErase_ne {κ ν : Type} [BEq κ] [LawfulBEq κ]
    (d : PyDict κ ν) (k k2 : κ) (h : k ≠ k2) :
    pyGet? (pyErase d k) k2 = pyGet? d k2 := by
  induction d with
  | nil => rfl
  | cons p rest ih =>
    by_cases hp : p.1 == k
    · have hp1 : p.1 = k := eq_of_beq hp
      have hne : ¬(p.1 == k2) := by simp [beq_iff_eq, hp1, h]
      simp only [pyErase, List.filter, hp, Bool.not_true] at ih ⊢
      simp [pyGet?_cons, hne, ih]
    · simp only [pyErase, List.filter, hp, Bool.not_false] at ih ⊢
      by_cases hp2 : p.1 == k2 <;> simp [pyGet?_cons, hp2, ih]

theorem pyGet?_pyErase_none {κ ν : Type} [BEq κ] [LawfulBEq κ]
    (d : PyDict κ ν) (k k2 : κ) (h : pyGet? d k2 = none) :
    pyGet? (pyErase d k) k2 = none := by
  by_cases hk : k = k2
  · subst hk; exact pyGet?_pyErase_self d k
  · rw [pyGet?_pyErase_ne d k k2 hk]; exact h

theorem pyGet?_mem {κ ν : Type} [BEq κ] [LawfulBEq κ]
    (d : PyDict κ ν) (k : κ) (v : ν) (h : pyGet? d k = some v) : (k, v) ∈ d := by
  induction d with
  | nil => cases h
  | cons p rest ih =>
    rw [pyGet?_cons] at h
    by_cases hp : p.1 == k
    · rw [if_pos hp] at h
      have h1 : p.1 = k := eq_of_beq hp
      have h2 : p.2 = v := by injection h
      refine List.mem_cons.mpr (Or.inl ?_)
      rw [Prod.ext_iff]
      exact ⟨h1.symm, h2.symm⟩
    · rw [if_neg hp] at h
      exact List.mem_cons_of_mem _ (ih h)

theorem nodup_mem_pyGet? {κ ν : Type} [BEq κ] [LawfulBEq κ]
    (d : PyDict κ ν) (k : κ) (v : ν) (hnd : (d.map Prod.fst).Nodup)
    (h : (k, v) ∈ d) : pyGet? d k = some v := by
  induction d with
  | nil => cases h
  | cons p rest ih =>
    rw [List.map_cons, List.nodup_cons] at hnd
    rcases List.mem_cons.mp h with h1 | h1
    · rw [← h1, pyGet?_cons]
      simp
    · have hk : p.1 ≠ k := by
        intro he
        exact hnd.1 (he ▸ (List.mem_map.mpr ⟨(k, v), h1, rfl⟩))
      rw [pyGet?_cons, if_neg (by simp [beq_iff_eq, hk])]
      exact ih hnd.2 h1

/-! ### Claim C2, amended part -/
theorem extractUnitsGo_eq_none (cfg : Config) :
    ∀ (l : List RawUnit) (acc : List UnitDetail) (prim : Option UnitDetail),
      (∃ u ∈ l, u.unitTypeText = none) → extractUnitsGo cfg l acc prim = none := by
  intro l
  induction l with
  | nil =>
    intro acc prim h
    rcases h with ⟨u, hu, _⟩
    cases hu
  | cons u rest ih =>
    intro acc prim h
    rcases h with ⟨v, hv, hvn⟩
    cases hty : u.unitTypeText with
    | none => simp [extractUnitsGo, hty]
    | some ty =>
      rcases List.mem_cons.mp hv with h1 | h2
      · rw [h1] at hvn
        rw [hty] at hvn
        cases hvn
      · simp only [extractUnitsGo, hty]
        exact ih _ _ ⟨v, h2, hvn⟩

/-- Claim C2 amended: a Unit element missing its `Type` sub-field does not
lose just that unit — the `AttributeError` from `.title()` is caught by the
file-level handler, so the whole file yields the error tuple and
contributes nothing this pass (a missing call identifier, by contrast,
still yields a snapshot, which the caller then skips). -/
theorem c2_amended_unit_missing_type_fails_file (cfg : Config) (name : Str)
    (d : CallDoc) (h : ∃ u ∈ d.assignedUnits, u.unitTypeText = none) :
    extract_xml_data cfg { name := name, content := .doc d } = .errTuple := by
  have hu := extractUnitsGo_eq_none cfg d.assignedUnits [] none h
  simp only [extract_xml_data]
  cases hac : extractAgencyContexts d.agencyContexts with
  | none => rfl
  | some acs => rw [hu]

theorem c2_amended_witness :
    extract_xml_data cfg0 { name := str "12_1.xml", content := .doc c2doc } =
      .errTuple :=
  c2_amended_unit_missing_type_fails_file cfg0 (str "12_1.xml") c2doc
    ⟨unitNoType, by decide, rfl⟩

theorem timeEvolves_refl (x : Option Int) : timeEvolves x x := Or.inl rfl

theorem timeEvolves_trans {x y z : Option Int} (h1 : timeEvolves x y)
    (h2 : timeEvolves y z) : timeEvolves x z := by
  rcases h1 with h1 | ⟨hx, b, hy⟩ | ⟨a, b, hx, hy, hab⟩
  · rw [h1] at h2; exact h2
  · rcases h2 with h2 | ⟨hy2, c, hz⟩ | ⟨c, d, hyc, hzd, hcd⟩
    · rw [h2, hy]; exact Or.inr (Or.inl ⟨hx, b, rfl⟩)
    · rw [hy] at hy2; cases hy2
    · exact Or.inr (Or.inl ⟨hx, d, hzd⟩)
  · rcases h2 with h2 | ⟨hy2, c, hz⟩ | ⟨c, d, hyc, hzd, hcd⟩
    · rw [h2, hy]; exact Or.inr (Or.inr ⟨a, b, hx, rfl, hab⟩)
    · rw [hy] at hy2; cases hy2
    · rw [hy] at hyc
      injection hyc with hbc
      exact Or.inr (Or.inr ⟨a, d, hx, hzd, lt_trans hab (hbc ▸ hcd)⟩)

theorem timeEvolves_le {x y : Option Int} (h : timeEvolves x y) :
    ∀ a b, x = some a → y = some b → a ≤ b := by
  intro a b hx hy
  rcases h with h | ⟨hx2, _, _⟩ | ⟨c, d, hxc, hyd, hcd⟩
  · rw [h, hx] at hy
    injection hy with hab
    exact le_of_eq hab
  · rw [hx] at hx2; cases hx2
  · rw [hx] at hxc; rw [hy] at hyd
    injection hxc with hac
    injection hyd with hbd
    exact le_of_lt (hac ▸ hbd ▸ hcd)

theorem mergeTimeField_evolves (e n : Option Int) :
    timeEvolves e (mergeTimeField e n) := by
  cases n with
  | none => exact timeEvolves_refl e
  | some a =>
    cases e with
    | none => exact Or.inr (Or.inl ⟨rfl, a, rfl⟩)
    | some b =>
      simp only [mergeTimeField]
      by_cases h : b < a
      · rw [if_pos h]
        exact Or.inr (Or.inr ⟨b, a, rfl, rfl, h⟩)
      · rw [if_neg h]
        exact timeEvolves_refl _

theorem unitEvolves_refl (u : UnitDetail) : unitEvolves u u :=
  ⟨timeEvolves_refl _, timeEvolves_refl _, timeEvolves_refl _⟩

theorem unitEvolves_trans {u v w : UnitDetail} (h1 : unitEvolves u v)
    (h2 : unitEvolves v w) : unitEvolves u w :=
  ⟨timeEvolves_trans h1.1 h2.1, timeEvolves_trans h1.2.1 h2.2.1,
    timeEvolves_trans h1.2.2 h2.2.2⟩

theorem updateUnitTimes_evolves (ex nu : UnitDetail) :
    unitEvolves ex (updateUnitTimes ex nu) :=
  ⟨mergeTimeField_evolves _ _, mergeTimeField_evolves _ _, mergeTimeField_evolves _ _⟩

theorem updateUnitTimes_unit_id (ex nu : UnitDetail) :
    (updateUnitTimes ex nu).unit_id = ex.unit_id := rfl

theorem keyedUnits_pyInsert {d : PyDict (Option Str) UnitDetail}
    {k : Option Str} {v : UnitDetail} (h : keyedUnits d) (hv : v.unit_id = k) :
    keyedUnits (pyInsert d k v) := by
  intro p hp
  rcases mem_pyInsert d k v p hp with h1 | h1
  · rw [h1]; exact hv
  · exact h p h1

theorem keyedUnits_foldl_aux (units : List UnitDetail) :
    ∀ d, keyedUnits d →
      keyedUnits (units.foldl (fun d u => pyInsert d u.unit_id u) d) := by
  induction units with
  | nil => intro d h; exact h
  | cons u rest ih =>
    intro d h
    exact ih _ (keyedUnits_pyInsert h rfl)

theorem keyedUnits_buildUnitsDict (units : List UnitDetail) :
    keyedUnits (buildUnitsDict units) :=
  keyedUnits_foldl_aux units [] (by intro p hp; cases hp)

theorem pyGet?_keyed {d : PyDict (Option Str) UnitDetail} {k : Option Str}
    {v : UnitDetail} (h : keyedUnits d) (hget : pyGet? d k = some v) :
    v.unit_id = k :=
  h (k, v) (pyGet?_mem d k v hget)

theorem keyedUnits_mergeStep (excluded : List Str)
    {d : PyDict (Option Str) UnitDetail} (nu : UnitDetail) (h : keyedUnits d) :
    keyedUnits (mergeStep excluded d nu) := by
  unfold mergeStep
  cases hnu : pyGet? d nu.unit_id with
  | some exu =>
    exact keyedUnits_pyInsert h
      ((updateUnitTimes_unit_id exu nu).trans (pyGet?_keyed h hnu))
  | none =>
    by_cases hx : excluded.contains (lowerStr nu.unit_type)
    · rw [if_pos hx]; exact h
    · rw [if_neg hx]; exact keyedUnits_pyInsert h rfl

theorem mergeStep_evolves (excluded : List Str)
    {d : PyDict (Option Str) UnitDetail} (nu : UnitDetail) {uid : Option Str}
    {u : UnitDetail} (h : keyedUnits d) (hget : pyGet? d uid = some u) :
    ∃ v, pyGet? (mergeStep excluded d nu) uid = some v ∧ unitEvolves u v := by
  unfold mergeStep
  cases hnu : pyGet? d nu.unit_id with
  | some exu =>
    by_cases hk : nu.unit_id = uid
    · rw [hk] at hnu
      rw [hget] at hnu
      injection hnu with hexu
      refine ⟨updateUnitTimes u nu, ?_, updateUnitTimes_evolves u nu⟩
      rw [hk, hexu, pyGet?_pyInsert_self]
    · exact ⟨u, by rw [pyGet?_pyInsert_ne _ _ _ _ hk]; exact hget, unitEvolves_refl u⟩
  | none =>
    by_cases hx : excluded.contains (lowerStr nu.unit_type)
    · rw [if_pos hx]; exact ⟨u, hget, unitEvolves_refl u⟩
    · rw [if_neg hx]
      have hk : nu.unit_id ≠ uid := by
        intro he
        rw [he, hget] at hnu
        cases hnu
      exact ⟨u, by rw [pyGet?_pyInsert_ne _ _ _ _ hk]; exact hget, unitEvolves_refl u⟩

theorem foldl_mergeStep_evolves (excluded : List Str) (l : List UnitDetail)
    {uid : Option Str} :
    ∀ d u, keyedUnits d → pyGet? d uid = some u →
      ∃ v, pyGet? (l.foldl (mergeStep excluded) d) uid = some v ∧ unitEvolves u v := by
  induction l with
  | nil => intro d u _ hget; exact ⟨u, hget, unitEvolves_refl u⟩
  | cons nu rest ih =>
    intro d u h hget
    rcases mergeStep_evolves excluded nu h hget with ⟨v1, hv1, hev1⟩
    rcases ih _ _ (keyedUnits_mergeStep excluded nu h) hv1 with ⟨v, hv, hev⟩
    exact ⟨v, hv, unitEvolves_trans hev1 hev⟩

theorem keyedUnits_foldl_mergeStep (excluded : List Str) (l : List UnitDetail) :
    ∀ d, keyedUnits d → keyedUnits (l.foldl (mergeStep excluded) d) := by
  induction l with
  | nil => intro d h; exact h
  | cons nu rest ih => intro d h; exact ih _ (keyedUnits_mergeStep excluded nu h)

theorem find?_values_eq_pyGet? (d : PyDict (Option Str) UnitDetail)
    (h : keyedUnits d) (uid : Option Str) :
    (d.map (fun p => p.2)).find? (fun u => u.unit_id == uid) = pyGet? d uid := by
  induction d with
  | nil => rfl
  | cons p rest ih =>
    have hp : p.2.unit_id = p.1 := h p (List.mem_cons_self _ _)
    have hrest : keyedUnits rest := fun q hq => h q (List.mem_cons_of_mem _ hq)
    rw [List.map_cons, pyGet?_cons]
    by_cases hk : p.1 == uid
    · rw [List.find?_cons_of_pos _ (by rw [hp]; exact hk), if_pos hk]
    · rw [List.find?_cons_of_neg _ (by rw [hp]; exact hk), if_neg hk]
      exact ih hrest

/-- Claim C5: for every pair of unit lists and every unit identifier
present in both, `merge_unit_details` replaces each of the three timestamp
fields only by a non-null value that fills a null or strictly increases
the stored one; consequently the merged value is never earlier than the
stored value whenever both are non-null.  `e` is the stored unit for `uid`
(the line-267 dictionary of the existing list) and `v` the unit for `uid`
in the merge result. -/
theorem c5_merge_timestamps_monotone (excluded : List Str)
    (existing incoming : List UnitDetail) (uid : Option Str) (e v : UnitDetail)
    (he : pyGet? (buildUnitsDict existing) uid = some e)
    (hin : incoming.any (fun u => u.unit_id == uid) = true)
    (hv : (merge_unit_details excluded existing incoming).find?
        (fun u => u.unit_id == uid) = some v) :
    mergeMonotoneProp e v := by
  have hkey := keyedUnits_buildUnitsDict existing
  rcases foldl_mergeStep_evolves excluded incoming _ e hkey he with ⟨v2, hv2, hev⟩
  have hkey2 := keyedUnits_foldl_mergeStep excluded incoming _ hkey
  rw [merge_unit_details, find?_values_eq_pyGet? _ hkey2, hv2] at hv
  injection hv with hvv
  rw [← hvv]
  exact ⟨hev, timeEvolves_le hev.1, timeEvolves_le hev.2.1, timeEvolves_le hev.2.2⟩

theorem c5_merge_timestamps_monotone_witness :
    mergeMonotoneProp c5unitOld c5unitMerged :=
  c5_merge_timestamps_monotone [] [c5unitOld] [c5unitNew] (some (str "m1"))
    c5unitOld c5unitMerged (by decide) (by decide) (by decide)

/-- Claim C6: (1) whenever the unit scan succeeds and yields a primary unit
whose lower-cased type is in the excluded-unit-types set, the snapshot is
dropped with reason `ExcludedPrimaryUnitType`, regardless of its call-type
text (which may itself be excluded); (2) the excluded-call-type drop is
produced only after the primary-unit-type, excluded-unit, EMS and
police-without-fire checks all failed. -/
theorem c6_filtering_order :
    (∀ (cfg : Config) (pud : PyDict Str Str) (cn : Str) (s : Snapshot)
        (fl : DispatchFlags) (pu : UnitDetail) (nc : Str),
      scanUnitsGo cfg s.unit_details (initFlags s) = some fl →
      fl.effPrimary = some pu →
      s.nature_of_call = some nc →
      cfg.excluded_unit_types.contains (lowerStr pu.unit_type) = true →
      (classify cfg pud cn s).2 = .drop .excludedPrimaryUnitType) ∧
    (∀ (cfg : Config) (pud : PyDict Str Str) (cn : Str) (fl : DispatchFlags)
        (pu : Option UnitDetail) (nature : Option Str),
      classifyChecks cfg pud cn fl pu nature = .drop .excludedCallType →
      reachedCallTypeCheckProp cfg pud cn fl pu) := by
  constructor
  · intro cfg pud cn s fl pu nc hscan heff hnat hexc
    have hscan2 : scanUnitsGo cfg s.unit_details
        { fire := false, ems := false, police := false, hasExcluded := false,
          effPrimary := s.primary_unit } = some fl := hscan
    simp only [classify, hscan2, heff, hnat]
    simp only [classifyChecks, hexc]
    simp
  · intro cfg pud cn fl pu nature h
    unfold classifyChecks at h
    split_ifs at h with h1 h2 h3 h4
    · simp at h
    · simp at h
    · simp at h
    · simp at h
    · refine ⟨?_, ?_, ?_, ?_⟩
      · intro p hp
        rw [hp] at h1
        simpa using h1
      · simpa using h2
      · simpa [beq_iff_eq] using h3
      · simpa [Bool.and_eq_true, beq_iff_eq, Bool.not_eq_true'] using h4

theorem c6_filtering_order_witness :
    (classify cfg6 [] (str "77") c6snap).2 = .drop .excludedPrimaryUnitType ∧
      reachedCallTypeCheckProp cfg6 [] (str "77") c6flagsNone none :=
  ⟨c6_filtering_order.1 cfg6 [] (str "77") c6snap c6flags c6primUnit (str "alarm")
      (by decide) (by decide) (by decide) (by decide),
    c6_filtering_order.2 cfg6 [] (str "77") c6flagsNone none (some (str "alarm"))
      (by decide)⟩

/-! ### Claim C9: every returned group satisfies the unit-list invariant -/
theorem mem_insertDesc (x y : Int × IncidentGroup)
    (l : List (Int × IncidentGroup)) (h : x ∈ insertDesc y l) : x = y ∨ x ∈ l := by
  induction l with
  | nil =>
    simp only [insertDesc] at h
    rcases List.mem_cons.mp h with h1 | h1
    · exact Or.inl h1
    · cases h1
  | cons z rest ih =>
    simp only [insertDesc] at h
    by_cases hz : (z.1 ≤ y.1)
    · rw [if_pos (by simpa using hz)] at h
      rcases List.mem_cons.mp h with h1 | h1
      · exact Or.inl h1
      · exact Or.inr h1
    · rw [if_neg (by simpa using hz)] at h
      rcases List.mem_cons.mp h with h1 | h1
      · exact Or.inr (h1 ▸ List.mem_cons_self _ _)
      · rcases ih h1 with h2 | h2
        · exact Or.inl h2
        · exact Or.inr (List.mem_cons_of_mem _ h2)

theorem mem_sortDesc (x : Int × IncidentGroup) (l : List (Int × IncidentGroup))
    (h : x ∈ sortDesc l) : x ∈ l := by
  induction l with
  | nil => cases h
  | cons y rest ih =>
    simp only [sortDesc] at h
    rcases mem_insertDesc x y (sortDesc rest) h with h1 | h1
    · exact h1 ▸ List.mem_cons_self _ _
    · exact List.mem_cons_of_mem _ (ih h1)

theorem keyAll_mem (l : List IncidentGroup) (pairs : List (Int × IncidentGroup))
    (h : keyAll l = .ok pairs) : ∀ p ∈ pairs, p.2 ∈ l := by
  induction l generalizing pairs with
  | nil =>
    simp only [keyAll] at h
    injection h with h2
    rw [← h2]
    intro p hp
    cases hp
  | cons g rest ih =>
    simp only [keyAll] at h
    cases hk : groupSortKey g with
    | error e => rw [hk] at h; cases h
    | ok k =>
      rw [hk] at h
      cases hr : keyAll rest with
      | error e => rw [hr] at h; cases h
      | ok l2 =>
        rw [hr] at h
        injection h with h2
        rw [← h2]
        intro p hp
        rcases List.mem_cons.mp hp with h1 | h1
        · rw [h1]; exact List.mem_cons_self _ _
        · exact List.mem_cons_of_mem _ (ih l2 hr p h1)

/-- Claim C9: whenever the Aggregation Pass returns, every returned
IncidentGroup's final unit list holds only units with a null clear
timestamp and a non-excluded (lower-cased) type — established by the
post-processing filter of lines 478-479 regardless of what the merges
produced. -/
theorem c9_group_unit_invariant (cfg : Config) (now : Int)
    (reg : PyDict Str Int) (files : List XmlFile) (out : PassOutput)
    (h : process_xml_files cfg now reg files = .ok out) :
    ∀ g ∈ out.calls, ∀ u ∈ g.unit_details,
      u.clear_time = none ∧ cfg.excluded_units.contains (lowerStr u.unit_type) = false := by
  intro g hg u hu
  unfold process_xml_files at h
  cases hc : closedCalls cfg files with
  | error e => rw [hc] at h; cases h
  | ok closed =>
    rw [hc] at h
    dsimp only at h
    cases hp : passLoop cfg now closed files
        { location_calls := [], processed := [], latest := [],
          files_to_delete := [], primary_units := [], call_display_times := reg } with
    | error e => rw [hp] at h; cases h
    | ok st =>
      rw [hp] at h
      dsimp only at h
      cases hk : keyAll (st.location_calls.map (fun p => filterGroupUnits cfg p.2)) with
      | error e => rw [hk] at h; cases h
      | ok pairs =>
        rw [hk] at h
        dsimp only at h
        injection h with h2
        rw [← h2] at hg
        simp only at hg
        rcases List.mem_map.mp hg with ⟨pr, hpr, hgpr⟩
        have hmem := keyAll_mem _ _ hk pr (mem_sortDesc _ _ hpr)
        rcases List.mem_map.mp hmem with ⟨q, _, hq⟩
        have hunits : g.unit_details = (filterGroupUnits cfg q.2).unit_details := by
          rw [← hgpr, joinCallNumbers, hq]
        rw [hunits] at hu
        simp only [filterGroupUnits] at hu
        have h3 := List.of_mem_filter hu
        simp only [Bool.and_eq_true] at h3
        rcases h3 with ⟨hcl, hex⟩
        refine ⟨by simpa [beq_iff_eq] using hcl, by simpa using hex⟩

theorem c9_group_unit_invariant_witness :
    process_xml_files cfg0 3 [] [c9file] = .ok c9out ∧
      ∀ g ∈ c9out.calls, ∀ u ∈ g.unit_details,
        u.clear_time = none ∧
          cfg0.excluded_units.contains (lowerStr u.unit_type) = false :=
  ⟨by decide,
    fun g hg u hu =>
      c9_group_unit_invariant cfg0 3 [] [c9file] c9out (by decide) g hg u hu⟩

theorem StepOK_refl (closed : List Str) (st : PassState) : StepOK closed st st :=
  ⟨fun _ hx => hx, fun _ _ h => h, fun h => h⟩

theorem StepOK_trans {closed : List Str} {st1 st2 st3 : PassState}
    (h1 : StepOK closed st1 st2) (h2 : StepOK closed st2 st3) :
    StepOK closed st1 st3 :=
  ⟨fun x hx => h2.1 x (h1.1 x hx),
    fun c hc hn => h2.2.1 c hc (h1.2.1 c hc hn),
    fun h => h2.2.2 (h1.2.2 h)⟩

theorem keepStep_StepOK (cfg : Config) (now : Int) (closed : List Str)
    (f : XmlFile) (s : Snapshot) (cn : Str) (nc : Str) (st : PassState)
    (hcn : cn ∉ closed) : StepOK closed st (keepStep cfg now f s cn nc st) := by
  unfold keepStep
  cases hl : s.location with
  | none => exact StepOK_refl closed st
  | some loc =>
    dsimp only
    cases hg : pyGet? st.location_calls loc with
    | some g =>
      dsimp only
      have hmemg := pyGet?_mem _ _ _ hg
      by_cases hct : pyContains st.call_display_times cn
      all_goals
        first
        | rw [if_pos hct]
        | rw [if_neg hct]
      all_goals refine ⟨fun x hx => hx, ?_, ?_⟩
      · intro c _ hn; exact hn
      · intro hG p hp c hc
        rcases mem_pyInsert _ _ _ _ hp with h1 | h1
        · rw [h1] at hc
          simp only [apply_ite IncidentGroup.call_numbers, ite_self] at hc
          by_cases hcin : g.call_numbers.contains cn
          · rw [if_pos hcin] at hc
            exact hG (loc, g) hmemg c hc
          · rw [if_neg hcin] at hc
            rcases List.mem_append.mp hc with h2 | h2
            · exact hG (loc, g) hmemg c h2
            · rcases List.mem_singleton.mp h2 with rfl
              exact hcn
        · exact hG p h1 c hc
      · intro c hcc hn
        have hne : cn ≠ c := fun he => hcn (he ▸ hcc)
        rw [pyGet?_pyInsert_ne _ _ _ _ hne]
        exact hn
      · intro hG p hp c hc
        rcases mem_pyInsert _ _ _ _ hp with h1 | h1
        · rw [h1] at hc
          simp only [apply_ite IncidentGroup.call_numbers, ite_self] at hc
          by_cases hcin : g.call_numbers.contains cn
          · rw [if_pos hcin] at hc
            exact hG (loc, g) hmemg c hc
          · rw [if_neg hcin] at hc
            rcases List.mem_append.mp hc with h2 | h2
            · exact hG (loc, g) hmemg c h2
            · rcases List.mem_singleton.mp h2 with rfl
              exact hcn
        · exact hG p h1 c hc
    | none =>
      dsimp only
      by_cases hct : pyContains st.call_display_times cn
      all_goals
        first
        | rw [if_pos hct]
        | rw [if_neg hct]
      all_goals refine ⟨fun x hx => hx, ?_, ?_⟩
      · intro c _ hn; exact hn
      · intro hG p hp c hc
        rcases mem_pyInsert _ _ _ _ hp with h1 | h1
        · rw [h1] at hc
          rcases List.mem_singleton.mp hc with rfl
          exact hcn
        · exact hG p h1 c hc
      · intro c hcc hn
        have hne : cn ≠ c := fun he => hcn (he ▸ hcc)
        rw [pyGet?_pyInsert_ne _ _ _ _ hne]
        exact hn
      · intro hG p hp c hc
        rcases mem_pyInsert _ _ _ _ hp with h1 | h1
        · rw [h1] at hc
          rcases List.mem_singleton.mp hc with rfl
          exact hcn
        · exact hG p h1 c hc

/-- Every accepted iteration of the main loop preserves `StepOK`: the
delete set only grows, closed call numbers never (re)enter the registry,
and no closed call number enters a group. -/
theorem processFileStep_StepOK (cfg : Config) (now : Int) (closed : List Str)
    (st : PassState) (f : XmlFile) (st2 : PassState)
    (h : processFileStep cfg now closed st f = .ok st2) : StepOK closed st st2 := by
  unfold processFileStep at h
  split at h
  · injection h with h2; rw [← h2]; exact StepOK_refl _ _
  · rename_i x1 pr hpr
    split at h
    · cases h
    · rename_i x2 s hex
      dsimp only at h
      split at h
      · -- truthy
        split at h
        · -- closed branch
          rename_i hcl
          injection h with h2
          rw [← h2]
          refine ⟨fun x hx2 => List.mem_append_left _ hx2, ?_, fun hG => hG⟩
          intro c hcc hnone
          dsimp only
          split
          · exact pyGet?_pyErase_none _ _ _ hnone
          · exact hnone
        · rename_i hcl
          have hcnotin : s.call_number.getD [] ∉ closed := by simpa using hcl
          split at h
          · cases h
          · rename_i previous hprev
            split at h
            · injection h with h2; rw [← h2]; exact StepOK_refl _ _
            · split at h
              · cases h
              · rename_i dels1 hdels
                have hsub : ∀ x ∈ st.files_to_delete, x ∈ dels1 := by
                  split at hdels
                  · split at hdels
                    · injection hdels with hd
                      rw [← hd]
                      exact fun x hx => List.mem_append_left _ hx
                    · cases hdels
                  · injection hdels with hd
                    rw [← hd]
                    exact fun x hx => hx
                split at h
                · injection h with h2
                  rw [← h2]
                  exact ⟨fun x hx => hsub x hx, fun c hc hn => hn, fun hG => hG⟩
                · injection h with h2
                  rw [← h2]
                  exact ⟨fun x hx => List.mem_append_left _ (hsub x hx),
                    fun c hc hn => hn, fun hG => hG⟩
                · rename_i nc hkeep
                  injection h with h2
                  rw [← h2]
                  refine StepOK_trans ?_ (keepStep_StepOK cfg now closed f s _ nc _ hcnotin)
                  exact ⟨fun x hx => hsub x hx, fun c hc hn => hn, fun hG => hG⟩
      · injection h with h2; rw [← h2]; exact StepOK_refl _ _

theorem passLoop_StepOK (cfg : Config) (now : Int) (closed : List Str) :
    ∀ (l : List XmlFile) (st stF : PassState),
      passLoop cfg now closed l st = .ok stF → StepOK closed st stF := by
  intro l
  induction l with
  | nil =>
    intro st stF h
    injection h with h2
    rw [← h2]
    exact StepOK_refl _ _
  | cons f rest ih =>
    intro st stF h
    simp only [passLoop] at h
    cases hs : processFileStep cfg now closed st f with
    | error e => rw [hs] at h; cases h
    | ok stB =>
      rw [hs] at h
      dsimp only at h
      exact StepOK_trans (processFileStep_StepOK cfg now closed st f stB hs) (ih stB stF h)

theorem passLoop_ok_split (cfg : Config) (now : Int) (closed : List Str) :
    ∀ (l1 : List XmlFile) (f : XmlFile) (l2 : List XmlFile) (st stF : PassState),
      passLoop cfg now closed (l1 ++ f :: l2) st = .ok stF →
      ∃ stA stB, passLoop cfg now closed l1 st = .ok stA ∧
        processFileStep cfg now closed stA f = .ok stB ∧
        passLoop cfg now closed l2 stB = .ok stF := by
  intro l1
  induction l1 with
  | nil =>
    intro f l2 st stF h
    rw [List.nil_append] at h
    simp only [passLoop] at h
    cases hs : processFileStep cfg now closed st f with
    | error e => rw [hs] at h; cases h
    | ok stB =>
      rw [hs] at h
      dsimp only at h
      exact ⟨st, stB, rfl, hs, h⟩
  | cons g rest ih =>
    intro f l2 st stF h
    rw [List.cons_append] at h
    simp only [passLoop] at h
    cases hs : processFileStep cfg now closed st g with
    | error e => rw [hs] at h; cases h
    | ok stB =>
      rw [hs] at h
      dsimp only at h
      rcases ih f l2 stB stF h with ⟨stA, stC, h1, h2, h3⟩
      refine ⟨stA, stC, ?_, h2, h3⟩
      simp only [passLoop, hs]
      exact h1

theorem processFileStep_closed_establish (cfg : Config) (now : Int)
    (closed : List Str) (st : PassState) (f : XmlFile) (s : Snapshot) (cn : Str)
    (hpr : (parseStagedName f.name).isSome = true)
    (hex : extract_xml_data cfg f = .ok s)
    (hcn : s.call_number = some cn) (hcne : cn ≠ [])
    (hin : cn ∈ closed) :
    ∃ st2, processFileStep cfg now closed st f = .ok st2 ∧
      f.name ∈ st2.files_to_delete ∧ pyGet? st2.call_display_times cn = none := by
  unfold processFileStep
  obtain ⟨pr, hpr2⟩ := Option.isSome_iff_exists.mp hpr
  rw [hpr2, hex]
  dsimp only
  have htr : truthy s.call_number = true := by
    rw [hcn]
    simp only [truthy]
    simpa using hcne
  rw [if_pos htr]
  have hgd : s.call_number.getD [] = cn := by rw [hcn]; rfl
  rw [hgd]
  have hclt : closed.contains cn = true := by simpa using hin
  rw [if_pos hclt]
  refine ⟨_, rfl, ?_, ?_⟩
  · exact List.mem_append_right _ (List.mem_singleton.mpr rfl)
  · dsimp only
    by_cases hct : pyContains st.call_display_times cn
    · rw [if_pos hct]
      exact pyGet?_pyErase_self _ _
    · rw [if_neg hct]
      cases hq : pyGet? st.call_display_times cn with
      | none => rfl
      | some v =>
        exact absurd (by rw [pyContains, hq]; rfl) hct

/-- Claim C3 amended: for every staged file set on which the pass returns,
every staged file WHOSE NAME MATCHES the `<digits>_<digits>.xml(...)`
pattern and whose extracted call identifier is in the closed-call set is
added to the delete set, contributes to no IncidentGroup (no returned
group carries a closed call identifier), and the registry entry for that
call identifier is absent when the pass returns.  (The original claim
also covered files with non-matching names; those are skipped before the
closed-call branch — see the counterexample.) -/
theorem c3_amended_closed_calls_purged (cfg : Config) (now : Int)
    (reg : PyDict Str Int) (files : List XmlFile) (out : PassOutput)
    (closed : List Str) (f : XmlFile) (s : Snapshot) (cn : Str)
    (hrun : process_xml_files cfg now reg files = .ok out)
    (hclosed : closedCalls cfg files = .ok closed)
    (hf : f ∈ files)
    (hname : (parseStagedName f.name).isSome = true)
    (hex : extract_xml_data cfg f = .ok s)
    (hcn : s.call_number = some cn) (hcne : cn ≠ [])
    (hin : cn ∈ closed) :
    f.name ∈ out.files_to_delete ∧
      (∀ g ∈ out.calls, cn ∉ g.call_numbers) ∧
      pyGet? out.call_display_times cn = none := by
  unfold process_xml_files at hrun
  rw [hclosed] at hrun
  dsimp only at hrun
  cases hp : passLoop cfg now closed files
      { location_calls := [], processed := [], latest := [],
        files_to_delete := [], primary_units := [], call_display_times := reg } with
  | error e => rw [hp] at hrun; cases hrun
  | ok st =>
    rw [hp] at hrun
    dsimp only at hrun
    cases hk : keyAll (st.location_calls.map (fun p => filterGroupUnits cfg p.2)) with
    | error e => rw [hk] at hrun; cases hrun
    | ok pairs =>
      rw [hk] at hrun
      dsimp only at hrun
      injection hrun with h2
      rw [← h2]
      have hG : GroupsOK closed st :=
        (passLoop_StepOK cfg now closed files _ st hp).2.2 (fun p hp2 => by cases hp2)
      obtain ⟨l1, l2, hfiles⟩ := List.append_of_mem hf
      rw [hfiles] at hp
      rcases passLoop_ok_split cfg now closed l1 f l2 _ st hp with ⟨stA, stB, h1, hstep, h3⟩
      rcases processFileStep_closed_establish cfg now closed stA f s cn hname hex hcn
          hcne hin with ⟨stB2, hstep2, hd, hr⟩
      rw [hstep] at hstep2
      injection hstep2 with hBB
      rw [← hBB] at hd hr
      have hso := passLoop_StepOK cfg now closed l2 stB st h3
      refine ⟨hso.1 f.name hd, ?_, hso.2.1 cn hin hr⟩
      intro g hg hcg
      rcases List.mem_map.mp hg with ⟨prr, hprr, hgpr⟩
      have hmem := keyAll_mem _ _ hk prr (mem_sortDesc _ _ hprr)
      rcases List.mem_map.mp hmem with ⟨q, hqmem, hq⟩
      have hcns : g.call_numbers = q.2.call_numbers := by
        rw [← hgpr]
        simp only [joinCallNumbers, ← hq, filterGroupUnits]
      rw [hcns] at hcg
      exact (hG q hqmem cn hcg) hin

theorem c3_amended_witness :
    process_xml_files cfg0 0 [(str "5", (0 : Int))] [c3goodFile] = .ok c3wOut ∧
      ((str "5_1.xml") ∈ c3wOut.files_to_delete ∧
        (∀ g ∈ c3wOut.calls, (str "5") ∉ g.call_numbers) ∧
        pyGet? c3wOut.call_display_times (str "5") = none) :=
  ⟨by decide,
    c3_amended_closed_calls_purged cfg0 0 [(str "5", (0 : Int))] [c3goodFile] c3wOut
      [str "5"] c3goodFile c3snap (str "5") (by decide) (by decide)
      (List.mem_singleton.mpr rfl) (by decide) (by decide) (by decide) (by decide)
      (List.mem_singleton.mpr rfl)⟩

theorem cleanupScanGo_ok (cfg : Config) (cn : Str) :
    ∀ (fs kept : List XmlFile), (∀ f ∈ fs, extract_xml_data cfg f ≠ .errTuple) →
      cleanupScanGo cfg cn fs kept =
        (kept ++ fs.filter (fun f => !(endsWithXml f.name && scanMatches cfg cn f)),
          false) := by
  intro fs
  induction fs with
  | nil => intro kept hok; simp [cleanupScanGo]
  | cons f rest ih =>
    intro kept hok
    have hokf : extract_xml_data cfg f ≠ .errTuple := hok f (List.mem_cons_self _ _)
    have hokr : ∀ g ∈ rest, extract_xml_data cfg g ≠ .errTuple :=
      fun g hg => hok g (List.mem_cons_of_mem _ hg)
    by_cases hx : endsWithXml f.name
    · cases hex : extract_xml_data cfg f with
      | errTuple => exact absurd hex hokf
      | ok s =>
        by_cases hm : (s.call_number == some cn)
        · have : cleanupScanGo cfg cn (f :: rest) kept = cleanupScanGo cfg cn rest kept := by
            simp only [cleanupScanGo, hx, if_pos, hex]
            rw [if_pos hm]
          rw [this, ih kept hokr]
          have hpred : (!(endsWithXml f.name && scanMatches cfg cn f)) = false := by
            simp [hx, scanMatches, hex, hm]
          simp [List.filter, hpred]
        · have : cleanupScanGo cfg cn (f :: rest) kept =
              cleanupScanGo cfg cn rest (kept ++ [f]) := by
            simp only [cleanupScanGo, hx, if_pos, hex]
            rw [if_neg hm]
          rw [this, ih (kept ++ [f]) hokr]
          have hpred : (!(endsWithXml f.name && scanMatches cfg cn f)) = true := by
            simp only [scanMatches, hex]
            simp [hx]
            simpa using hm
          simp [List.filter, hpred]
    · have : cleanupScanGo cfg cn (f :: rest) kept =
          cleanupScanGo cfg cn rest (kept ++ [f]) := by
        simp only [cleanupScanGo]
        rw [if_neg hx]
      rw [this, ih (kept ++ [f]) hokr]
      have hpred : (!(endsWithXml f.name && scanMatches cfg cn f)) = true := by
        simp [hx]
      simp [List.filter, hpred]

/-- Files kept by a retention scan are files that were already staged. -/
theorem scanFilter_sub (cfg : Config) (c : Str) (fs : List XmlFile) :
    ∀ f ∈ fs.filter (fun f => !(endsWithXml f.name && scanMatches cfg c f)), f ∈ fs :=
  fun f hf => List.mem_of_mem_filter hf

theorem cleanupRemoveGo_preserve (cfg : Config) (cn : Str) :
    ∀ (lrem : List Str) (r : PyDict Str Int) (fs : List XmlFile),
      (∀ f ∈ fs, endsWithXml f.name = true ∧ extract_xml_data cfg f ≠ .errTuple) →
      pyGet? r cn = none → (∀ f ∈ fs, scanMatches cfg cn f = false) →
      pyGet? (cleanupRemoveGo cfg lrem r fs).1 cn = none ∧
        ∀ f ∈ (cleanupRemoveGo cfg lrem r fs).2, scanMatches cfg cn f = false := by
  intro lrem
  induction lrem with
  | nil => intro r fs hok hr hm; exact ⟨hr, hm⟩
  | cons c rest ih =>
    intro r fs hok hr hm
    have hscan := cleanupScanGo_ok cfg c fs [] (fun f hf => (hok f hf).2)
    simp only [cleanupRemoveGo, hscan]
    have hsub := scanFilter_sub cfg c fs
    exact ih (pyErase r c)
      (fs.filter (fun f => !(endsWithXml f.name && scanMatches cfg c f)))
      (fun f hf => hok f (hsub f hf))
      (pyGet?_pyErase_none _ _ _ hr)
      (fun f hf => hm f (hsub f hf))

theorem cleanupRemoveGo_removes (cfg : Config) (cn : Str) :
    ∀ (lrem : List Str) (r : PyDict Str Int) (fs : List XmlFile),
      cn ∈ lrem →
      (∀ f ∈ fs, endsWithXml f.name = true ∧ extract_xml_data cfg f ≠ .errTuple) →
      pyGet? (cleanupRemoveGo cfg lrem r fs).1 cn = none ∧
        ∀ f ∈ (cleanupRemoveGo cfg lrem r fs).2, scanMatches cfg cn f = false := by
  intro lrem
  induction lrem with
  | nil => intro r fs hin; cases hin
  | cons c rest ih =>
    intro r fs hin hok
    have hscan := cleanupScanGo_ok cfg c fs [] (fun f hf => (hok f hf).2)
    simp only [cleanupRemoveGo, hscan]
    have hsub := scanFilter_sub cfg c fs
    have hok2 : ∀ f ∈ fs.filter (fun f => !(endsWithXml f.name && scanMatches cfg c f)),
        endsWithXml f.name = true ∧ extract_xml_data cfg f ≠ .errTuple :=
      fun f hf => hok f (hsub f hf)
    by_cases hc : c = cn
    · subst hc
      refine cleanupRemoveGo_preserve cfg c rest (pyErase r c) _ hok2
        (pyGet?_pyErase_self _ _) ?_
      intro f hf
      have hkeep := List.of_mem_filter hf
      have hends := (hok f (hsub f hf)).1
      simp only [hends, Bool.true_and, Bool.not_eq_true'] at hkeep
      exact hkeep
    · rcases List.mem_cons.mp hin with h1 | h1
      · exact absurd h1.symm hc
      · exact ih (pyErase r c) _ h1 hok2

theorem cleanupRemoveGo_retains (cfg : Config) (cn : Str) (t : Int) :
    ∀ (lrem : List Str) (r : PyDict Str Int) (fs : List XmlFile),
      cn ∉ lrem →
      (∀ f ∈ fs, endsWithXml f.name = true ∧ extract_xml_data cfg f ≠ .errTuple) →
      pyGet? r cn = some t →
      pyGet? (cleanupRemoveGo cfg lrem r fs).1 cn = some t ∧
        ∀ f ∈ fs, scanMatches cfg cn f = true → f ∈ (cleanupRemoveGo cfg lrem r fs).2 := by
  intro lrem
  induction lrem with
  | nil => intro r fs hnin hok hr; exact ⟨hr, fun f hf _ => hf⟩
  | cons c rest ih =>
    intro r fs hnin hok hr
    have hcne : c ≠ cn := fun he => hnin (he ▸ List.mem_cons_self _ _)
    have hnin2 : cn ∉ rest := fun hh => hnin (List.mem_cons_of_mem _ hh)
    have hscan := cleanupScanGo_ok cfg c fs [] (fun f hf => (hok f hf).2)
    simp only [cleanupRemoveGo, hscan]
    have hsub := scanFilter_sub cfg c fs
    have hok2 : ∀ f ∈ fs.filter (fun f => !(endsWithXml f.name && scanMatches cfg c f)),
        endsWithXml f.name = true ∧ extract_xml_data cfg f ≠ .errTuple :=
      fun f hf => hok f (hsub f hf)
    have hr2 : pyGet? (pyErase r c) cn = some t := by
      rw [pyGet?_pyErase_ne _ _ _ hcne]; exact hr
    rcases ih (pyErase r c) _ hnin2 hok2 hr2 with ⟨ha, hb⟩
    refine ⟨ha, ?_⟩
    intro f hf hmf
    have hfkept : f ∈ fs.filter (fun f => !(endsWithXml f.name && scanMatches cfg c f)) := by
      refine List.mem_filter.mpr ⟨hf, ?_⟩
      cases hex : extract_xml_data cfg f with
      | errTuple => exact absurd hex (hok f hf).2
      | ok s =>
        have hcnf : s.call_number = some cn := by
          have := hmf
          simp only [scanMatches, hex] at this
          exact eq_of_beq this
        have : scanMatches cfg c f = false := by
          simp only [scanMatches, hex, hcnf]
          simp [hcne.symm]
        simp [this]
    exact hb f hfkept hmf

/-- Claim C8 amended: the Retention Sweeper removes a registry entry and
every staged `.xml` file whose parsed call identifier matches it exactly
when the WHOLE-MINUTE age exceeds 360, i.e. when the age reaches 361
minutes; at any age whose floor in minutes is 360 or less (so in
particular at 359 minutes or less, but also anywhere inside the 361st
minute, e.g. at 360.5 minutes) the entry and its backing files are
retained.  Hypotheses: registry keys are unique and every staged file is
a parsable `.xml` file (an unparsable file would abort the tick through
the 10-name unpacking of line 318). -/
theorem c8_amended_retention_ceiling (cfg : Config) (now : Int)
    (reg : PyDict Str Int) (files : List XmlFile) (cn : Str) (t : Int)
    (hnd : (reg.map Prod.fst).Nodup)
    (hreg : pyGet? reg cn = some t)
    (hfiles : ∀ f ∈ files, endsWithXml f.name = true ∧ extract_xml_data cfg f ≠ .errTuple) :
    (Int.fdiv (now - t) 60 > 360 →
      pyGet? (cleanup_old_calls_tick cfg now reg files).1 cn = none ∧
        ∀ f ∈ (cleanup_old_calls_tick cfg now reg files).2,
          scanMatches cfg cn f = false) ∧
    (Int.fdiv (now - t) 60 ≤ 360 →
      pyGet? (cleanup_old_calls_tick cfg now reg files).1 cn = some t ∧
        ∀ f ∈ files, scanMatches cfg cn f = true →
          f ∈ (cleanup_old_calls_tick cfg now reg files).2) := by
  constructor
  · intro hage
    have hmem : cn ∈ (reg.filter
        (fun p => decide (Int.fdiv (now - p.2) 60 > 360))).map (fun p => p.1) := by
      refine List.mem_map.mpr ⟨(cn, t), ?_, rfl⟩
      refine List.mem_filter.mpr ⟨pyGet?_mem _ _ _ hreg, by simpa using hage⟩
    exact cleanupRemoveGo_removes cfg cn _ reg files hmem hfiles
  · intro hage
    have hnmem : cn ∉ (reg.filter
        (fun p => decide (Int.fdiv (now - p.2) 60 > 360))).map (fun p => p.1) := by
      intro hmem
      rcases List.mem_map.mp hmem with ⟨p, hp, hp1⟩
      have hpin := List.mem_of_mem_filter hp
      have hpred := List.of_mem_filter hp
      have hpt : p.2 = t := by
        have hlook : pyGet? reg p.1 = some p.2 :=
          nodup_mem_pyGet? reg p.1 p.2 hnd (by
            have : p = (p.1, p.2) := rfl
            rw [← this]; exact hpin)
        rw [hp1, hreg] at hlook
        injection hlook with hv
        exact hv.symm
      rw [hpt] at hpred
      simp only [decide_eq_true_eq] at hpred
      exact absurd hpred (not_lt.mpr hage)
    exact cleanupRemoveGo_retains cfg cn t _ reg files hnmem hfiles hreg

theorem c8_amended_retention_ceiling_witness :
    (Int.fdiv ((21660 : Int) - 0) 60 > 360 →
      pyGet? (cleanup_old_calls_tick cfg0 21660 [(str "7", (0 : Int))] [c8file]).1
          (str "7") = none ∧
        ∀ f ∈ (cleanup_old_calls_tick cfg0 21660 [(str "7", (0 : Int))] [c8file]).2,
          scanMatches cfg0 (str "7") f = false) ∧
    (Int.fdiv ((21660 : Int) - 0) 60 ≤ 360 →
      pyGet? (cleanup_old_calls_tick cfg0 21660 [(str "7", (0 : Int))] [c8file]).1
          (str "7") = some 0 ∧
        ∀ f ∈ [c8file], scanMatches cfg0 (str "7") f = true →
          f ∈ (cleanup_old_calls_tick cfg0 21660 [(str "7", (0 : Int))] [c8file]).2) :=
  c8_amended_retention_ceiling cfg0 21660 [(str "7", (0 : Int))] [c8file] (str "7") 0
    (by decide) (by decide) (by decide)

end LIS
